import Mathlib

/-! R36S controller keyboard/mouse: input pipeline.

A shallow embedding of `src/main.cpp`.

Conventions of the embedding.

* The C++ `int` is the 32-bit two's complement integer of the target.  An `int`
  value is an integer between `INT_MIN` and `INT_MAX`; where the source negates,
  takes the absolute value of, subtracts, multiplies or adds `int` values of
  unknown size, the result is reduced by `wrap32`, which is what the compiled
  code computes.
* `float` values are read over the exact rationals.
* `keys[currentIndex]` outside the bounds of `keys` has no defined result: the
  model of `moveFocus` returns `none` there.
* A call `write(fd, &ev, sizeof(ev))` is recorded as the event handed to the
  descriptor; the write calls of the emitters do not depend on one another's
  outcome, so an emitter is modelled by the list of events it hands over.
-/

namespace R36S

/-! ## Machine integers -/

/-- The constant `INT_MAX` of `<climits>` for a 32-bit `int`. -/
def INT_MAX : Int := 2147483647

/-- The constant `INT_MIN` of `<climits>` for a 32-bit `int`. -/
def INT_MIN : Int := -2147483648

/-- The value that a 32-bit two's complement `int` holds after an operation whose exact
result is `x`: the representative of `x` modulo 2^32 between `INT_MIN` and `INT_MAX`. -/
def wrap32 (x : Int) : Int :=
  (x + 2147483648) % 4294967296 - 2147483648

/-! ## Signal conditioner -/

/-- The source function `apply_deadzone` (lines 332-337); `std::abs` is taken in 32-bit
arithmetic. -/
def apply_deadzone (value deadzone : Int) : Int :=
  if wrap32 |value| < deadzone then 0 else value

/-- The source function `analog_to_key_speed` (lines 339-345), over the rationals. -/
def analog_to_key_speed (value deadzone : Int) (sensitivity : ℚ) : ℚ :=
  let value := apply_deadzone value deadzone
  if value = 0 then 0
  else
    let normalized : ℚ := (value : ℚ) / 1800
    normalized * sensitivity

/-! ## Focus navigator -/

/-- The source record `Key` (lines 25-29); the widget pointer `button` is not modelled. -/
structure Key where
  label : String
  row : Int
  col : Int
  width : Int
deriving DecidableEq, Repr

/-- The globals the navigator writes: the cursor `currentIndex` and the queue of
focus requests handed to the UI thread by `g_idle_add` in `focusButton`. -/
structure UiState where
  currentIndex : Int
  focusRequests : List Int
deriving DecidableEq, Repr

/-- The source function `focusButton` (lines 132-142): range check, then the cursor is
set and one focus request is queued. -/
def focusButton (keys : List Key) (st : UiState) (index : Int) : UiState :=
  if index < 0 ∨ index ≥ (keys.length : Int) then st
  else { currentIndex := index, focusRequests := st.focusRequests ++ [index] }

/-- The loop of `moveFocus` (lines 149-166) over the keys not yet visited; `i` is the
loop counter and the pair is `(bestScore, bestIndex)`.  The differences, the products and
the sum of lines 158-160 are 32-bit operations. -/
def moveFocusLoop (current : Key) (currentIndex dx dy : Int) :
    List Key → Nat → Int × Int → Int × Int
  | [], _, best => best
  | k :: rest, i, (bestScore, bestIndex) =>
    if (i : Int) = currentIndex then
      moveFocusLoop current currentIndex dx dy rest (i + 1) (bestScore, bestIndex)
    else if (dx ≠ 0 ∧ ((dx > 0 ∧ k.col ≤ current.col) ∨ (dx < 0 ∧ k.col ≥ current.col))) ∨
        (dy ≠ 0 ∧ ((dy > 0 ∧ k.row ≤ current.row) ∨ (dy < 0 ∧ k.row ≥ current.row))) then
      moveFocusLoop current currentIndex dx dy rest (i + 1) (bestScore, bestIndex)
    else
      let dcol := wrap32 (k.col - current.col)
      let drow := wrap32 (k.row - current.row)
      let score := wrap32 (wrap32 (dcol * dcol) + wrap32 (drow * drow))
      if score < bestScore then
        moveFocusLoop current currentIndex dx dy rest (i + 1) (score, (i : Int))
      else
        moveFocusLoop current currentIndex dx dy rest (i + 1) (bestScore, bestIndex)

/-- The source function `moveFocus` (lines 144-173).  The unchecked access
`keys[currentIndex]` of line 145 yields `none` when the cursor is out of range. -/
def moveFocus (keys : List Key) (st : UiState) (dx dy : Int) : Option (Bool × UiState) :=
  if st.currentIndex < 0 then none
  else
    match keys[st.currentIndex.toNat]? with
    | none => none
    | some current =>
      let best := moveFocusLoop current st.currentIndex dx dy keys 0 (INT_MAX, st.currentIndex)
      if best.2 ≠ st.currentIndex then some (true, focusButton keys st best.2)
      else some (false, st)

/-- The element at an integer index, when the index is in range. -/
def keyAt (keys : List Key) (i : Int) : Option Key :=
  if i < 0 then none else keys[i.toNat]?

/-- The direction filter in the words of the specification: the candidate lies strictly
on the requested side of the current element. -/
def onRequestedSide (current k : Key) (dx dy : Int) : Prop :=
  (dx > 0 → k.col > current.col) ∧ (dx < 0 → k.col < current.col) ∧
  (dy > 0 → k.row > current.row) ∧ (dy < 0 → k.row < current.row)

instance (current k : Key) (dx dy : Int) : Decidable (onRequestedSide current k dx dy) := by
  unfold onRequestedSide; infer_instance

/-- Squared Euclidean distance in (row, col) space. -/
def sqDist (a b : Key) : Int :=
  (b.col - a.col) ^ 2 + (b.row - a.row) ^ 2

/-- The score that the loop of `moveFocus` gives the element `k` (lines 158-160), in
32-bit arithmetic. -/
def score32 (current k : Key) : Int :=
  wrap32 (wrap32 (wrap32 (k.col - current.col) * wrap32 (k.col - current.col)) +
    wrap32 (wrap32 (k.row - current.row) * wrap32 (k.row - current.row)))

/-- A candidate of a move: an element other than the current one that passes the
direction filter. -/
def isCandidate (keys : List Key) (cursor : Int) (current : Key) (dx dy : Int) (i : Int) : Prop :=
  i ≠ cursor ∧ ∃ k, keyAt keys i = some k ∧ onRequestedSide current k dx dy

/-- The source callback `click_button_idle` (lines 175-181): the index of the key whose
button is clicked, if the index is in range. -/
def click_button_idle (keys : List Key) (idx : Int) : Option Int :=
  if idx ≥ 0 ∧ idx < (keys.length : Int) then some idx else none

/-- A full logical grid of `R` rows and `C` columns: every element lies in the grid and
every cell holds exactly one element, whatever the order of the sequence. -/
def isFullGrid (R C : Nat) (keys : List Key) : Prop :=
  (∀ k ∈ keys, 0 ≤ k.row ∧ k.row < (R : Int) ∧ 0 ≤ k.col ∧ k.col < (C : Int)) ∧
  ∀ r < R, ∀ c < C, keys.countP (fun k => decide (k.row = (r : Int) ∧ k.col = (c : Int))) = 1

instance (R C : Nat) (keys : List Key) : Decidable (isFullGrid R C keys) := by
  unfold isFullGrid; infer_instance

/-- Example data: the 3x3 grid, listed row by row. -/
def grid3x3 : List Key :=
  [⟨"a", 0, 0, 1⟩, ⟨"b", 0, 1, 1⟩, ⟨"c", 0, 2, 1⟩,
   ⟨"d", 1, 0, 1⟩, ⟨"e", 1, 1, 1⟩, ⟨"f", 1, 2, 1⟩,
   ⟨"g", 2, 0, 1⟩, ⟨"h", 2, 1, 1⟩, ⟨"i", 2, 2, 1⟩]

/-- Example data: two elements at the same distance to the right of the first one, and a
third one further away. -/
def tieKeys : List Key :=
  [⟨"p", 1, 0, 1⟩, ⟨"far", 1, 3, 1⟩, ⟨"up", 0, 1, 1⟩, ⟨"down", 2, 1, 1⟩]

/-- Example data: an element at column 0, one at column 46341 and one at column 1, all
in row 0. -/
def overflowKeys : List Key :=
  [⟨"p", 0, 0, 1⟩, ⟨"far", 0, 46341, 1⟩, ⟨"near", 0, 1, 1⟩]

/-- Example data: the grid of one row and `C` columns, listed from left to right. -/
def rowGrid (C : Nat) : List Key :=
  (List.range C).map
    (fun (c : Nat) => { label := "k", row := 0, col := (c : Int), width := 1 })

/-- Example data: a single key. -/
def oneKey : List Key := [⟨"ESC", 0, 0, 1⟩]

/-! ## Virtual input device -/

/-- The record `struct input_event` of `<linux/input.h>`; `time` stands for the
`timeval` stamp, in microseconds. -/
structure input_event where
  time : Int
  type : Int
  code : Int
  value : Int
deriving DecidableEq, Repr

/-! Event types and codes of `<linux/input-event-codes.h>`. -/

/-- Event type `EV_SYN`. -/
def EV_SYN : Int := 0
/-- Event type `EV_KEY`. -/
def EV_KEY : Int := 1
/-- Event type `EV_REL`. -/
def EV_REL : Int := 2
/-- Event type `EV_ABS`. -/
def EV_ABS : Int := 3
/-- Code `SYN_REPORT`. -/
def SYN_REPORT : Int := 0
/-- Code `REL_X`. -/
def REL_X : Int := 0
/-- Code `REL_Y`. -/
def REL_Y : Int := 1
/-- Code `REL_WHEEL`. -/
def REL_WHEEL : Int := 8
/-- Code `ABS_X`. -/
def ABS_X : Int := 0
/-- Code `ABS_Y`. -/
def ABS_Y : Int := 1
/-- Code `ABS_RX`. -/
def ABS_RX : Int := 3
/-- Code `ABS_RY`. -/
def ABS_RY : Int := 4
/-- Code `BTN_LEFT`. -/
def BTN_LEFT : Int := 272
/-- Code `BTN_RIGHT`. -/
def BTN_RIGHT : Int := 273
/-- Code `BTN_TL`. -/
def BTN_TL : Int := 310
/-- Code `BTN_TR`. -/
def BTN_TR : Int := 311
/-- Code `BTN_TL2`. -/
def BTN_TL2 : Int := 312
/-- Code `BTN_TR2`. -/
def BTN_TR2 : Int := 313
/-- Code `BTN_MODE`. -/
def BTN_MODE : Int := 316
/-- Code `BTN_THUMBR`. -/
def BTN_THUMBR : Int := 318

set_option linter.unusedVariables false in
/-- The source function `send_mouse_wheel` (lines 194-211): the events handed to
`write(fd, ...)`, in order. -/
def send_mouse_wheel (fd value : Int) : List input_event :=
  [{ time := 0, type := EV_REL, code := REL_WHEEL, value := value },
   { time := 0, type := EV_SYN, code := SYN_REPORT, value := 0 }]

set_option linter.unusedVariables false in
/-- The source function `send_mouse_rel` (lines 278-311): the events handed to
`write(fd, ...)`, in order.  The negations of lines 286 and 296 are 32-bit operations. -/
def send_mouse_rel (fd dx dy : Int) : List input_event :=
  (if dy ≠ 0 then [{ time := 0, type := EV_REL, code := REL_X, value := wrap32 (-dy) }]
   else []) ++
  (if dx ≠ 0 then [{ time := 0, type := EV_REL, code := REL_Y, value := wrap32 (-dx) }]
   else []) ++
  (if dx ≠ 0 ∨ dy ≠ 0 then [{ time := 0, type := EV_SYN, code := SYN_REPORT, value := 0 }]
   else [])

set_option linter.unusedVariables false in
/-- The source function `send_key` (lines 313-330): the events handed to `write(fd, ...)`,
in order.  The field `code` is a 16-bit unsigned integer, so the `int` key is reduced
modulo 65536. -/
def send_key (fd key value : Int) : List input_event :=
  [{ time := 0, type := EV_KEY, code := key % 65536, value := value },
   { time := 0, type := EV_SYN, code := SYN_REPORT, value := 0 }]

/-- One call of an emitter, with its arguments. -/
inductive EmitCall where
  | key (fd key value : Int)
  | wheel (fd value : Int)
  | rel (fd dx dy : Int)
deriving DecidableEq, Repr

/-- The events written by one emitter call. -/
def EmitCall.events : EmitCall → List input_event
  | .key fd k v => send_key fd k v
  | .wheel fd v => send_mouse_wheel fd v
  | .rel fd dx dy => send_mouse_rel fd dx dy

/-- The concatenated stream written by a sequence of emitter calls. -/
def emitAll (calls : List EmitCall) : List input_event :=
  (calls.map EmitCall.events).flatten

/-- The synchronization event written by the emitters. -/
def synEvent : input_event := { time := 0, type := EV_SYN, code := SYN_REPORT, value := 0 }

/-- An event is a synchronization event: `EV_SYN`/`SYN_REPORT`. -/
def isSyn (e : input_event) : Prop := e.type = EV_SYN ∧ e.code = SYN_REPORT

instance (e : input_event) : Decidable (isSyn e) := by
  unfold isSyn; infer_instance

/-- A framed stream: a sequence of batches, each made of one or more data events followed
by exactly one synchronization event.  The flag tells whether the batch under way
already holds a data event. -/
def framedFrom : Bool → List input_event → Bool
  | pending, [] => !pending
  | pending, e :: rest =>
    if isSyn e then pending && framedFrom false rest else framedFrom true rest

/-! ## Event reader loop -/

/-- The configuration record `Config` (lines 19-23), with `sensitivity` over the
rationals. -/
structure Config where
  deadzone : Int
  sensitivity : ℚ
  mouse_speed : Int
deriving DecidableEq, Repr

/-- The initial value of the global `config` (line 38). -/
def config : Config := { deadzone := 200, sensitivity := 1, mouse_speed := 10 }

/-- The state the loop of `joystick_thread` reads and writes: the global `mode`, the
locals `abs_x`, `abs_y`, `abs_rx`, `abs_ry`, `last_move_x`, `last_move_y` (lines 380-381)
and the two fields of the global `joystick_state`. -/
structure ReaderState where
  mode : Int
  abs_x : Int
  abs_y : Int
  abs_rx : Int
  abs_ry : Int
  last_move_x : Int
  last_move_y : Int
  right_x : ℚ
  right_y : ℚ
deriving DecidableEq, Repr

/-- The calls the loop body makes on its collaborators, in the order of the source:
`moveFocus(dx, dy)`, `g_idle_add(click_button_idle, currentIndex)`,
`g_idle_add(click_button_idle, findKeyIndex(label))`,
`g_idle_add(toggle_keyboard_visibility, nullptr)`, `usleep(usec)`,
`send_key(uinput_fd, key, value)` and `send_mouse_wheel(uinput_fd, value)`. -/
inductive Effect where
  | moveFocus (dx dy : Int)
  | clickCurrent
  | clickLabel (label : String)
  | toggleKeyboardVisibility
  | usleep (usec : Nat)
  | sendKey (key value : Int)
  | sendMouseWheel (value : Int)
deriving DecidableEq, Repr

/-- The local constant `DEADZONE` of `joystick_thread` (line 379). -/
def DEADZONE : Int := 400

/-- The body of the loop of `joystick_thread` for one event returned by
`libevdev_next_event` with `rc == 0` (lines 396-504): the new state and the calls made.
The field `time` of the event is not read. -/
def handleEvent (cfg : Config) (s : ReaderState) (ev : input_event) :
    ReaderState × List Effect :=
  -- lines 398-406: right stick, in both modes
  let s1 : ReaderState :=
    if ev.type = EV_ABS ∧ (ev.code = ABS_RX ∨ ev.code = ABS_RY) then
      let abs_rx := if ev.code = ABS_RX then ev.value else s.abs_rx
      let abs_ry := if ev.code = ABS_RX then s.abs_ry
        else if ev.code = ABS_RY then ev.value else s.abs_ry
      { s with
        abs_rx := abs_rx
        abs_ry := abs_ry
        right_x := analog_to_key_speed abs_rx DEADZONE cfg.sensitivity
        right_y := analog_to_key_speed abs_ry DEADZONE cfg.sensitivity }
    else s
  if s1.mode = 0 then
    -- lines 408-455: keyboard navigation mode
    if ev.type = EV_ABS ∧ (ev.code = ABS_X ∨ ev.code = ABS_Y) then
      let abs_x := if ev.code = ABS_X then ev.value else s1.abs_x
      let abs_y := if ev.code = ABS_X then s1.abs_y
        else if ev.code = ABS_Y then ev.value else s1.abs_y
      let move_x : Int := if abs_x > DEADZONE then -1 else if abs_x < -DEADZONE then 1 else 0
      let move_y : Int := if abs_y > DEADZONE then -1 else if abs_y < -DEADZONE then 1 else 0
      if move_x ≠ s1.last_move_x ∨ move_y ≠ s1.last_move_y then
        ({ s1 with abs_x := abs_x, abs_y := abs_y, last_move_x := move_x, last_move_y := move_y },
          (if move_x ≠ 0 then [Effect.moveFocus move_x 0] else []) ++
          (if move_y ≠ 0 then [Effect.moveFocus 0 move_y] else []))
      else ({ s1 with abs_x := abs_x, abs_y := abs_y }, [])
    else if ev.type = EV_KEY ∧ ev.value = 1 then
      if ev.code = BTN_THUMBR then (s1, [Effect.clickCurrent])
      else if ev.code = BTN_MODE then
        ({ s1 with mode := 1 }, [Effect.toggleKeyboardVisibility, Effect.usleep 200000])
      else if ev.code = BTN_TL then (s1, [Effect.sendKey BTN_LEFT 1])
      else if ev.code = BTN_TR then (s1, [Effect.sendKey BTN_RIGHT 1])
      else if ev.code = BTN_TL2 then (s1, [Effect.sendMouseWheel 1])
      else if ev.code = BTN_TR2 then (s1, [Effect.sendMouseWheel (-1)])
      else (s1, [])
    else if ev.type = EV_KEY ∧ ev.value = 0 then
      if ev.code = BTN_TL then (s1, [Effect.sendKey BTN_LEFT 0])
      else if ev.code = BTN_TR then (s1, [Effect.sendKey BTN_RIGHT 0])
      else (s1, [])
    else (s1, [])
  else if s1.mode = 1 then
    -- lines 456-503: game control mode
    if ev.type = EV_ABS ∧ (ev.code = ABS_X ∨ ev.code = ABS_Y) then
      let abs_x := if ev.code = ABS_X then ev.value else s1.abs_x
      let abs_y := if ev.code = ABS_X then s1.abs_y
        else if ev.code = ABS_Y then ev.value else s1.abs_y
      let move_x : Int := if abs_x > DEADZONE then 1 else if abs_x < -DEADZONE then -1 else 0
      let move_y : Int := if abs_y > DEADZONE then 1 else if abs_y < -DEADZONE then -1 else 0
      if move_x ≠ s1.last_move_x ∨ move_y ≠ s1.last_move_y then
        ({ s1 with abs_x := abs_x, abs_y := abs_y, last_move_x := move_x, last_move_y := move_y },
          (if move_x = 1 then [Effect.clickLabel "D"]
           else if move_x = -1 then [Effect.clickLabel "A"] else []) ++
          (if move_y = 1 then [Effect.clickLabel "S"]
           else if move_y = -1 then [Effect.clickLabel "W"] else []))
      else ({ s1 with abs_x := abs_x, abs_y := abs_y }, [])
    else if ev.type = EV_KEY ∧ ev.value = 1 then
      if ev.code = BTN_MODE then
        ({ s1 with mode := 0 }, [Effect.toggleKeyboardVisibility, Effect.usleep 200000])
      else if ev.code = BTN_TL then (s1, [Effect.sendKey BTN_LEFT 1])
      else if ev.code = BTN_TR then (s1, [Effect.sendKey BTN_RIGHT 1])
      else if ev.code = BTN_TL2 then (s1, [Effect.sendMouseWheel 1])
      else if ev.code = BTN_TR2 then (s1, [Effect.sendMouseWheel (-1)])
      else (s1, [])
    else if ev.type = EV_KEY ∧ ev.value = 0 then
      if ev.code = BTN_TL then (s1, [Effect.sendKey BTN_LEFT 0])
      else if ev.code = BTN_TR then (s1, [Effect.sendKey BTN_RIGHT 0])
      else (s1, [])
    else (s1, [])
  else (s1, [])

/-- The loop of `joystick_thread` over the events the device returns, in order (lines
392-508): the final state and all calls made.  Events that arrive while the thread
sleeps stay queued in the device and are returned by the following reads. -/
def runEvents (cfg : Config) (s : ReaderState) : List input_event → ReaderState × List Effect
  | [] => (s, [])
  | ev :: rest =>
    let r := handleEvent cfg s ev
    let r2 := runEvents cfg r.1 rest
    (r2.1, r.2 ++ r2.2)

/-- The state of the loop when `joystick_thread` enters it: navigation mode, all axes at
rest, last fired direction (0, 0). -/
def readerInit : ReaderState :=
  { mode := 0, abs_x := 0, abs_y := 0, abs_rx := 0, abs_ry := 0,
    last_move_x := 0, last_move_y := 0, right_x := 0, right_y := 0 }

/-- An `ABS_X` event with the given stamp and raw value. -/
def absXEvent (time value : Int) : input_event :=
  { time := time, type := EV_ABS, code := ABS_X, value := value }

/-- A press of the mode button with the given stamp. -/
def modePress (time : Int) : input_event :=
  { time := time, type := EV_KEY, code := BTN_MODE, value := 1 }

/-- A release of the mode button with the given stamp. -/
def modeRelease (time : Int) : input_event :=
  { time := time, type := EV_KEY, code := BTN_MODE, value := 0 }

/-- The successive values of `mode` while the loop handles the events, the initial value
first. -/
def modeTrace (cfg : Config) (s : ReaderState) : List input_event → List Int
  | [] => [s.mode]
  | ev :: rest => s.mode :: modeTrace cfg (handleEvent cfg s ev).1 rest

/-- The number of positions at which two successive values of a list differ. -/
def countChanges : List Int → Nat
  | a :: b :: rest => (if a ≠ b then 1 else 0) + countChanges (b :: rest)
  | _ => 0

/-- An event of the left stick's X axis. -/
def isAbsX (e : input_event) : Prop := e.type = EV_ABS ∧ e.code = ABS_X

instance (e : input_event) : Decidable (isAbsX e) := by
  unfold isAbsX; infer_instance

/-- A press of the mode button. -/
def isModePress (e : input_event) : Prop :=
  e.type = EV_KEY ∧ e.code = BTN_MODE ∧ e.value = 1

instance (e : input_event) : Decidable (isModePress e) := by
  unfold isModePress; infer_instance

/-! ## Built-in keyboard -/

/-- The local table `keyboardLayout` of `setupKeyboard` (lines 86-93). -/
def keyboardLayout : List (List String) :=
  [["ESC", "F1", "F2", "F3", "F4", "F5", "F6", "F7", "F8", "F9", "F10", "F11", "F12"],
   ["`", "1", "2", "3", "4", "5", "6", "7", "8", "9", "0", "-", "=", "BACKSPACE"],
   ["TAB", "Q", "W", "E", "R", "T", "Y", "U", "I", "O", "P", "[", "]", "\\"],
   ["CAPS", "A", "S", "D", "F", "G", "H", "J", "K", "L", ";", "'", "ENTER"],
   ["SHIFT", "Z", "X", "C", "V", "B", "N", "M", ",", ".", "/", "SHIFT"],
   ["CTRL", "WIN", "ALT", "SPACE", "ALT", "WIN", "MENU", "CTRL"]]

/-- The inner loop of `setupKeyboard` (lines 97-118) over the labels of one line: `col` is
the running column, advanced by the width of each key, and `keys` is the global sequence
the keys are pushed onto. -/
def setupKeyboardLine (row : Int) : List String → Int → List Key → List Key
  | [], _, keys => keys
  | label :: rest, col, keys =>
    let width : Int :=
      if label = "TAB" then 2
      else if label = "BACKSPACE" then 2
      else if label = "CAPS" then 2
      else if label = "ENTER" then 2
      else if label = "SHIFT" then 2
      else if label = "SPACE" then 6
      else 1
    setupKeyboardLine row rest (col + width)
      (keys ++ [{ label := label, row := row, col := col, width := width }])

/-- The outer loop of `setupKeyboard` (lines 95-120) over the lines of the layout. -/
def setupKeyboardLines : List (List String) → Int → List Key → List Key
  | [], _, keys => keys
  | line :: rest, row, keys =>
    setupKeyboardLines rest (row + 1) (setupKeyboardLine row line 0 keys)

/-- The source function `setupKeyboard` (lines 85-121), as the new value of the global
`keys`. -/
def setupKeyboard (keys : List Key) : List Key :=
  setupKeyboardLines keyboardLayout 0 keys

/-- The navigator state that `activate` leaves (lines 530-534): the keyboard is built on
the empty sequence and `focusButton(0)` is called on the initial cursor 0. -/
def activate : List Key × UiState :=
  let keys := setupKeyboard []
  (keys, focusButton keys { currentIndex := 0, focusRequests := [] } 0)

/-- Successive calls of `moveFocus`, one for each direction request of the list; the
result is the state after the last call. -/
def moveFocusAll (keys : List Key) (st : UiState) : List (Int × Int) → Option UiState
  | [] => some st
  | d :: rest =>
    match moveFocus keys st d.1 d.2 with
    | none => none
    | some r => moveFocusAll keys r.2 rest

/-- The four unit direction requests. -/
def unitDirections : List (Int × Int) := [(1, 0), (-1, 0), (0, 1), (0, -1)]

/-- For each key index, a list of unit direction requests that leads from the initial
cursor to that key on the built-in keyboard. -/
def focusPaths : List (List (Int × Int)) :=
  [
   [],
   [(1, 0)],
   [(1, 0), (1, 0)],
   [(1, 0), (1, 0), (1, 0)],
   [(1, 0), (1, 0), (1, 0), (1, 0)],
   [(1, 0), (1, 0), (1, 0), (1, 0), (1, 0)],
   [(1, 0), (1, 0), (1, 0), (1, 0), (1, 0), (1, 0)],
   [(1, 0), (1, 0), (1, 0), (1, 0), (1, 0), (1, 0), (1, 0)],
   [(1, 0), (1, 0), (1, 0), (1, 0), (1, 0), (1, 0), (1, 0), (1, 0)],
   [(1, 0), (1, 0), (1, 0), (1, 0), (1, 0), (1, 0), (1, 0), (1, 0), (1, 0)],
   [(1, 0), (1, 0), (1, 0), (1, 0), (1, 0), (1, 0), (1, 0), (1, 0), (1, 0), (1, 0)],
   [(1, 0), (1, 0), (1, 0), (1, 0), (1, 0), (1, 0), (1, 0), (1, 0), (1, 0), (1, 0), (1, 0)],
   [(1, 0), (1, 0), (1, 0), (1, 0), (1, 0), (1, 0), (1, 0), (1, 0), (1, 0), (1, 0), (1, 0), (1, 0)],
   [(0, 1)],
   [(1, 0), (0, 1)],
   [(1, 0), (1, 0), (0, 1)],
   [(1, 0), (1, 0), (1, 0), (0, 1)],
   [(1, 0), (1, 0), (1, 0), (1, 0), (0, 1)],
   [(1, 0), (1, 0), (1, 0), (1, 0), (1, 0), (0, 1)],
   [(1, 0), (1, 0), (1, 0), (1, 0), (1, 0), (1, 0), (0, 1)],
   [(1, 0), (1, 0), (1, 0), (1, 0), (1, 0), (1, 0), (1, 0), (0, 1)],
   [(1, 0), (1, 0), (1, 0), (1, 0), (1, 0), (1, 0), (1, 0), (1, 0), (0, 1)],
   [(1, 0), (1, 0), (1, 0), (1, 0), (1, 0), (1, 0), (1, 0), (1, 0), (1, 0), (0, 1)],
   [(1, 0), (1, 0), (1, 0), (1, 0), (1, 0), (1, 0), (1, 0), (1, 0), (1, 0), (1, 0), (0, 1)],
   [(1, 0), (1, 0), (1, 0), (1, 0), (1, 0), (1, 0), (1, 0), (1, 0), (1, 0), (1, 0), (1, 0), (0, 1)],
   [(1, 0), (1, 0), (1, 0), (1, 0), (1, 0), (1, 0), (1, 0), (1, 0), (1, 0), (1, 0), (1, 0), (1, 0), (0, 1)],
   [(1, 0), (1, 0), (1, 0), (1, 0), (1, 0), (1, 0), (1, 0), (1, 0), (1, 0), (1, 0), (1, 0), (1, 0), (1, 0)],
   [(0, 1), (0, 1)],
   [(1, 0), (1, 0), (0, 1), (0, 1)],
   [(1, 0), (1, 0), (1, 0), (0, 1), (0, 1)],
   [(1, 0), (1, 0), (1, 0), (1, 0), (0, 1), (0, 1)],
   [(1, 0), (1, 0), (1, 0), (1, 0), (1, 0), (0, 1), (0, 1)],
   [(1, 0), (1, 0), (1, 0), (1, 0), (1, 0), (1, 0), (0, 1), (0, 1)],
   [(1, 0), (1, 0), (1, 0), (1, 0), (1, 0), (1, 0), (1, 0), (0, 1), (0, 1)],
   [(1, 0), (1, 0), (1, 0), (1, 0), (1, 0), (1, 0), (1, 0), (1, 0), (0, 1), (0, 1)],
   [(1, 0), (1, 0), (1, 0), (1, 0), (1, 0), (1, 0), (1, 0), (1, 0), (1, 0), (0, 1), (0, 1)],
   [(1, 0), (1, 0), (1, 0), (1, 0), (1, 0), (1, 0), (1, 0), (1, 0), (1, 0), (1, 0), (0, 1), (0, 1)],
   [(1, 0), (1, 0), (1, 0), (1, 0), (1, 0), (1, 0), (1, 0), (1, 0), (1, 0), (1, 0), (1, 0), (0, 1), (0, 1)],
   [(1, 0), (1, 0), (1, 0), (1, 0), (1, 0), (1, 0), (1, 0), (1, 0), (1, 0), (1, 0), (1, 0), (1, 0), (0, 1), (0, 1)],
   [(1, 0), (1, 0), (1, 0), (1, 0), (1, 0), (1, 0), (1, 0), (1, 0), (1, 0), (1, 0), (1, 0), (1, 0), (1, 0), (0, 1)],
   [(1, 0), (1, 0), (1, 0), (1, 0), (1, 0), (1, 0), (1, 0), (1, 0), (1, 0), (1, 0), (1, 0), (1, 0), (1, 0), (1, 0)],
   [(0, 1), (0, 1), (0, 1)],
   [(0, 1), (0, 1), (0, 1), (1, 0)],
   [(0, 1), (0, 1), (0, 1), (1, 0), (1, 0)],
   [(0, 1), (0, 1), (0, 1), (1, 0), (1, 0), (1, 0)],
   [(0, 1), (0, 1), (0, 1), (1, 0), (1, 0), (1, 0), (1, 0)],
   [(0, 1), (0, 1), (0, 1), (1, 0), (1, 0), (1, 0), (1, 0), (1, 0)],
   [(0, 1), (0, 1), (0, 1), (1, 0), (1, 0), (1, 0), (1, 0), (1, 0), (1, 0)],
   [(0, 1), (0, 1), (0, 1), (1, 0), (1, 0), (1, 0), (1, 0), (1, 0), (1, 0), (1, 0)],
   [(0, 1), (0, 1), (0, 1), (1, 0), (1, 0), (1, 0), (1, 0), (1, 0), (1, 0), (1, 0), (1, 0)],
   [(0, 1), (0, 1), (0, 1), (1, 0), (1, 0), (1, 0), (1, 0), (1, 0), (1, 0), (1, 0), (1, 0), (1, 0)],
   [(0, 1), (0, 1), (0, 1), (1, 0), (1, 0), (1, 0), (1, 0), (1, 0), (1, 0), (1, 0), (1, 0), (1, 0), (1, 0)],
   [(0, 1), (0, 1), (0, 1), (1, 0), (1, 0), (1, 0), (1, 0), (1, 0), (1, 0), (1, 0), (1, 0), (1, 0), (1, 0), (1, 0)],
   [(1, 0), (1, 0), (1, 0), (1, 0), (1, 0), (1, 0), (1, 0), (1, 0), (1, 0), (1, 0), (1, 0), (1, 0), (1, 0), (1, 0), (0, 1)],
   [(0, 1), (0, 1), (0, 1), (0, 1)],
   [(0, 1), (0, 1), (0, 1), (1, 0), (0, 1)],
   [(0, 1), (0, 1), (0, 1), (1, 0), (1, 0), (0, 1)],
   [(0, 1), (0, 1), (0, 1), (1, 0), (1, 0), (1, 0), (0, 1)],
   [(0, 1), (0, 1), (0, 1), (1, 0), (1, 0), (1, 0), (1, 0), (0, 1)],
   [(0, 1), (0, 1), (0, 1), (1, 0), (1, 0), (1, 0), (1, 0), (1, 0), (0, 1)],
   [(0, 1), (0, 1), (0, 1), (1, 0), (1, 0), (1, 0), (1, 0), (1, 0), (1, 0), (0, 1)],
   [(0, 1), (0, 1), (0, 1), (1, 0), (1, 0), (1, 0), (1, 0), (1, 0), (1, 0), (1, 0), (0, 1)],
   [(0, 1), (0, 1), (0, 1), (1, 0), (1, 0), (1, 0), (1, 0), (1, 0), (1, 0), (1, 0), (1, 0), (0, 1)],
   [(0, 1), (0, 1), (0, 1), (1, 0), (1, 0), (1, 0), (1, 0), (1, 0), (1, 0), (1, 0), (1, 0), (1, 0), (0, 1)],
   [(0, 1), (0, 1), (0, 1), (1, 0), (1, 0), (1, 0), (1, 0), (1, 0), (1, 0), (1, 0), (1, 0), (1, 0), (1, 0), (0, 1)],
   [(0, 1), (0, 1), (0, 1), (1, 0), (1, 0), (1, 0), (1, 0), (1, 0), (1, 0), (1, 0), (1, 0), (1, 0), (1, 0), (1, 0), (0, 1)],
   [(0, 1), (0, 1), (0, 1), (0, 1), (0, 1)],
   [(0, 1), (0, 1), (0, 1), (0, 1), (1, 0)],
   [(0, 1), (0, 1), (0, 1), (1, 0), (0, 1), (0, 1)],
   [(0, 1), (0, 1), (0, 1), (1, 0), (1, 0), (0, 1), (0, 1)],
   [(0, 1), (0, 1), (0, 1), (1, 0), (1, 0), (1, 0), (1, 0), (1, 0), (1, 0), (0, 1), (0, 1)],
   [(0, 1), (0, 1), (0, 1), (1, 0), (1, 0), (1, 0), (1, 0), (1, 0), (1, 0), (0, 1), (0, 1), (1, 0)],
   [(0, 1), (0, 1), (0, 1), (1, 0), (1, 0), (1, 0), (1, 0), (1, 0), (1, 0), (0, 1), (0, 1), (1, 0), (1, 0)],
   [(0, 1), (0, 1), (0, 1), (1, 0), (1, 0), (1, 0), (1, 0), (1, 0), (1, 0), (0, 1), (0, 1), (1, 0), (1, 0), (1, 0)]]

/-! ## Theorems -/

/-! ### Machine integers -/

/-- A value within the range of `int` is left unchanged by `wrap32`. -/
theorem wrap32_of_range (x : Int) (hlo : INT_MIN ≤ x) (hhi : x ≤ INT_MAX) : wrap32 x = x := by
  unfold INT_MIN at hlo
  unfold INT_MAX at hhi
  unfold wrap32
  omega

/-- The result of `wrap32` is within the range of `int`. -/
theorem wrap32_range (x : Int) : INT_MIN ≤ wrap32 x ∧ wrap32 x ≤ INT_MAX := by
  unfold INT_MIN INT_MAX wrap32
  omega

/-- The absolute value of an `int` other than `INT_MIN` is representable. -/
theorem wrap32_abs (v : Int) (hlo : INT_MIN < v) (hhi : v ≤ INT_MAX) : wrap32 |v| = |v| := by
  apply wrap32_of_range
  · have := abs_nonneg v
    unfold INT_MIN; omega
  · unfold INT_MIN at hlo
    unfold INT_MAX at hhi ⊢
    exact abs_le.mpr ⟨by omega, by omega⟩

/-- The negation of an `int` other than `INT_MIN` is representable. -/
theorem wrap32_neg (v : Int) (hlo : INT_MIN < v) (hhi : v ≤ INT_MAX) : wrap32 (-v) = -v := by
  apply wrap32_of_range
  · unfold INT_MIN; unfold INT_MAX at hhi; omega
  · unfold INT_MAX; unfold INT_MIN at hlo; omega

/-! ### The navigator loop -/

/-- The skip condition of the loop is the negation of the direction filter. -/
theorem skip_iff (cur k : Key) (dx dy : Int) :
    ((dx ≠ 0 ∧ ((dx > 0 ∧ k.col ≤ cur.col) ∨ (dx < 0 ∧ k.col ≥ cur.col))) ∨
      (dy ≠ 0 ∧ ((dy > 0 ∧ k.row ≤ cur.row) ∨ (dy < 0 ∧ k.row ≥ cur.row)))) ↔
    ¬ onRequestedSide cur k dx dy := by
  unfold onRequestedSide
  omega

/-- The exact sum of the two squared differences is the squared distance. -/
theorem score_eq (cur k : Key) :
    (k.col - cur.col) * (k.col - cur.col) + (k.row - cur.row) * (k.row - cur.row) = sqDist cur k := by
  unfold sqDist; ring

/-- When the squared distance is below `INT_MAX`, every intermediate value of the score
computation (the two differences, the two products and their sum) is within the range of
a 32-bit `int`, so none of the 32-bit operations of the loop wraps. -/
theorem score_representable (cur k : Key) (h : sqDist cur k < INT_MAX) :
    (-INT_MAX ≤ k.col - cur.col ∧ k.col - cur.col ≤ INT_MAX) ∧
    (-INT_MAX ≤ k.row - cur.row ∧ k.row - cur.row ≤ INT_MAX) ∧
    (0 ≤ (k.col - cur.col) * (k.col - cur.col) ∧
      (k.col - cur.col) * (k.col - cur.col) ≤ INT_MAX) ∧
    (0 ≤ (k.row - cur.row) * (k.row - cur.row) ∧
      (k.row - cur.row) * (k.row - cur.row) ≤ INT_MAX) := by
  unfold sqDist INT_MAX at *
  have h1 : 0 ≤ (k.col - cur.col) ^ 2 := sq_nonneg _
  have h2 : 0 ≤ (k.row - cur.row) ^ 2 := sq_nonneg _
  have h3 : (k.col - cur.col) * (k.col - cur.col) = (k.col - cur.col) ^ 2 := by ring
  have h4 : (k.row - cur.row) * (k.row - cur.row) = (k.row - cur.row) ^ 2 := by ring
  have habs : ∀ a : Int, |a| ≤ a ^ 2 := by
    intro a
    rw [← sq_abs]
    have hx := abs_nonneg a
    rcases (by omega : |a| = 0 ∨ 1 ≤ |a|) with h0 | h1
    · rw [h0]; norm_num
    · nlinarith
  have h5 := habs (k.col - cur.col)
  have h6 := habs (k.row - cur.row)
  have h7 := abs_le.mp (le_trans h5 (by omega : (k.col - cur.col) ^ 2 ≤ 2147483647))
  have h8 := abs_le.mp (le_trans h6 (by omega : (k.row - cur.row) ^ 2 ≤ 2147483647))
  refine ⟨⟨h7.1, h7.2⟩, ⟨h8.1, h8.2⟩, ⟨by omega, by omega⟩, ⟨by omega, by omega⟩⟩

/-- The loop passes over the current element. -/
theorem loop_step_self (cur : Key) (ci dx dy : Int) (k : Key) (rest : List Key) (i : Nat)
    (bs bi : Int) (h : (i : Int) = ci) :
    moveFocusLoop cur ci dx dy (k :: rest) i (bs, bi) =
      moveFocusLoop cur ci dx dy rest (i + 1) (bs, bi) := by
  simp [moveFocusLoop, h]

/-- The loop passes over an element on the wrong side. -/
theorem loop_step_skip (cur : Key) (ci dx dy : Int) (k : Key) (rest : List Key) (i : Nat)
    (bs bi : Int) (h : ¬ onRequestedSide cur k dx dy) :
    moveFocusLoop cur ci dx dy (k :: rest) i (bs, bi) =
      moveFocusLoop cur ci dx dy rest (i + 1) (bs, bi) := by
  have hs := (skip_iff cur k dx dy).mpr h
  by_cases hi : (i : Int) = ci
  · simp [moveFocusLoop, hi]
  · rw [moveFocusLoop, if_neg hi, if_pos hs]

/-- The loop compares the score of an admissible element with the best so far. -/
theorem loop_step_take (cur : Key) (ci dx dy : Int) (k : Key) (rest : List Key) (i : Nat)
    (bs bi : Int) (hi : (i : Int) ≠ ci) (h : onRequestedSide cur k dx dy) :
    moveFocusLoop cur ci dx dy (k :: rest) i (bs, bi) =
      if score32 cur k < bs then moveFocusLoop cur ci dx dy rest (i + 1) (score32 cur k, (i : Int))
      else moveFocusLoop cur ci dx dy rest (i + 1) (bs, bi) := by
  have hs : ¬ _ := fun hc => (skip_iff cur k dx dy).mp hc h
  rw [moveFocusLoop, if_neg hi, if_neg hs]
  rfl

/-- What the loop computes: either nothing beat the initial best, or the result is the
first element of least squared distance among the admissible ones. -/
theorem loop_spec (cur : Key) (ci dx dy : Int) :
    ∀ (l : List Key) (i0 : Nat) (bs bi : Int),
      (moveFocusLoop cur ci dx dy l i0 (bs, bi) = (bs, bi) ∧
        ∀ j k, l[j]? = some k → ((i0 + j : Nat) : Int) ≠ ci → onRequestedSide cur k dx dy →
          bs ≤ score32 cur k) ∨
      (∃ j k, l[j]? = some k ∧
        moveFocusLoop cur ci dx dy l i0 (bs, bi) = (score32 cur k, ((i0 + j : Nat) : Int)) ∧
        ((i0 + j : Nat) : Int) ≠ ci ∧ onRequestedSide cur k dx dy ∧ score32 cur k < bs ∧
        (∀ j2 k2, l[j2]? = some k2 → ((i0 + j2 : Nat) : Int) ≠ ci →
          onRequestedSide cur k2 dx dy → score32 cur k ≤ score32 cur k2) ∧
        (∀ j2 k2, j2 < j → l[j2]? = some k2 → ((i0 + j2 : Nat) : Int) ≠ ci →
          onRequestedSide cur k2 dx dy → score32 cur k < score32 cur k2)) := by
  intro l
  induction l with
  | nil =>
    intro i0 bs bi
    left
    exact ⟨rfl, fun j k h => by simp at h⟩
  | cons k0 rest ih =>
    intro i0 bs bi
    -- facts about the tail, re-indexed
    have shift : ∀ j : Nat, ((i0 + 1 + j : Nat) : Int) = ((i0 + (j + 1) : Nat) : Int) := by
      intro j; congr 1; omega
    by_cases hadm : ((i0 : Nat) : Int) ≠ ci ∧ onRequestedSide cur k0 dx dy
    · obtain ⟨hi, hside⟩ := hadm
      rw [loop_step_take cur ci dx dy k0 rest i0 bs bi hi hside]
      by_cases hlt : score32 cur k0 < bs
      · rw [if_pos hlt]
        rcases ih (i0 + 1) (score32 cur k0) (i0 : Int) with ⟨heq, hall⟩ | ⟨j, k, hk, heq, hne, hs, hlt2, hmin, hfirst⟩
        · right
          refine ⟨0, k0, by simp, by simpa using heq, by simpa using hi, hside, hlt, ?_, ?_⟩
          · intro j2 k2 h2 hne2 hs2
            cases j2 with
            | zero => simp at h2; subst h2; exact le_refl _
            | succ j3 =>
              simp at h2
              exact hall j3 k2 h2 (by rw [shift]; exact hne2) hs2
          · intro j2 k2 hj2; omega
        · right
          refine ⟨j + 1, k, by simpa using hk, by rw [← shift]; exact heq, by rw [← shift]; exact hne, hs,
            lt_trans hlt2 hlt, ?_, ?_⟩
          · intro j2 k2 h2 hne2 hs2
            cases j2 with
            | zero => simp at h2; subst h2; exact le_of_lt hlt2
            | succ j3 =>
              simp at h2
              exact hmin j3 k2 h2 (by rw [shift]; exact hne2) hs2
          · intro j2 k2 hj2 h2 hne2 hs2
            cases j2 with
            | zero => simp at h2; subst h2; exact hlt2
            | succ j3 =>
              simp at h2
              exact hfirst j3 k2 (by omega) h2 (by rw [shift]; exact hne2) hs2
      · rw [if_neg hlt]
        rcases ih (i0 + 1) bs bi with ⟨heq, hall⟩ | ⟨j, k, hk, heq, hne, hs, hlt2, hmin, hfirst⟩
        · left
          refine ⟨heq, ?_⟩
          intro j2 k2 h2 hne2 hs2
          cases j2 with
          | zero => simp at h2; subst h2; exact not_lt.mp hlt
          | succ j3 =>
            simp at h2
            exact hall j3 k2 h2 (by rw [shift]; exact hne2) hs2
        · right
          refine ⟨j + 1, k, by simpa using hk, by rw [← shift]; exact heq, by rw [← shift]; exact hne, hs,
            hlt2, ?_, ?_⟩
          · intro j2 k2 h2 hne2 hs2
            cases j2 with
            | zero => simp at h2; subst h2; exact le_of_lt (lt_of_lt_of_le hlt2 (not_lt.mp hlt))
            | succ j3 =>
              simp at h2
              exact hmin j3 k2 h2 (by rw [shift]; exact hne2) hs2
          · intro j2 k2 hj2 h2 hne2 hs2
            cases j2 with
            | zero => simp at h2; subst h2; exact lt_of_lt_of_le hlt2 (not_lt.mp hlt)
            | succ j3 =>
              simp at h2
              exact hfirst j3 k2 (by omega) h2 (by rw [shift]; exact hne2) hs2
    · have hstep : moveFocusLoop cur ci dx dy (k0 :: rest) i0 (bs, bi) =
          moveFocusLoop cur ci dx dy rest (i0 + 1) (bs, bi) := by
        by_cases hi : ((i0 : Nat) : Int) = ci
        · exact loop_step_self cur ci dx dy k0 rest i0 bs bi hi
        · exact loop_step_skip cur ci dx dy k0 rest i0 bs bi (fun hs => hadm ⟨hi, hs⟩)
      rw [hstep]
      rcases ih (i0 + 1) bs bi with ⟨heq, hall⟩ | ⟨j, k, hk, heq, hne, hs, hlt2, hmin, hfirst⟩
      · left
        refine ⟨heq, ?_⟩
        intro j2 k2 h2 hne2 hs2
        cases j2 with
        | zero => simp at h2; subst h2; exact absurd ⟨by simpa using hne2, hs2⟩ hadm
        | succ j3 =>
          simp at h2
          exact hall j3 k2 h2 (by rw [shift]; exact hne2) hs2
      · right
        refine ⟨j + 1, k, by simpa using hk, by rw [← shift]; exact heq, by rw [← shift]; exact hne, hs,
          hlt2, ?_, ?_⟩
        · intro j2 k2 h2 hne2 hs2
          cases j2 with
          | zero => simp at h2; subst h2; exact absurd ⟨by simpa using hne2, hs2⟩ hadm
          | succ j3 =>
            simp at h2
            exact hmin j3 k2 h2 (by rw [shift]; exact hne2) hs2
        · intro j2 k2 hj2 h2 hne2 hs2
          cases j2 with
          | zero => simp at h2; subst h2; exact absurd ⟨by simpa using hne2, hs2⟩ hadm
          | succ j3 =>
            simp at h2
            exact hfirst j3 k2 (by omega) h2 (by rw [shift]; exact hne2) hs2

/-- Lookup at a natural index. -/
theorem keyAt_natCast (keys : List Key) (j : Nat) : keyAt keys (j : Int) = keys[j]? := by
  simp [keyAt]

/-- A successful lookup is at a natural index in range. -/
theorem keyAt_some (keys : List Key) (i : Int) (k : Key) (h : keyAt keys i = some k) :
    ∃ j : Nat, i = (j : Int) ∧ keys[j]? = some k ∧ j < keys.length := by
  unfold keyAt at h
  by_cases hneg : i < 0
  · simp [hneg] at h
  · rw [if_neg hneg] at h
    refine ⟨i.toNat, by omega, h, ?_⟩
    exact (List.getElem?_eq_some.mp h).1

/-- The two outcomes of `moveFocus` on a valid cursor: no admissible element has a score
below `INT_MAX`, or the first admissible element of least score receives the focus. -/
theorem moveFocus_cases32 (keys : List Key) (st : UiState) (dx dy : Int) (cur : Key)
    (hcur : keyAt keys st.currentIndex = some cur) :
    (moveFocus keys st dx dy = some (false, st) ∧
      ∀ (j : Nat) k, keys[j]? = some k → (j : Int) ≠ st.currentIndex →
        onRequestedSide cur k dx dy → INT_MAX ≤ score32 cur k) ∨
    (∃ (j : Nat) (k : Key), keys[j]? = some k ∧ (j : Int) ≠ st.currentIndex ∧
      moveFocus keys st dx dy =
        some (true, { currentIndex := (j : Int), focusRequests := st.focusRequests ++ [(j : Int)] }) ∧
      onRequestedSide cur k dx dy ∧ score32 cur k < INT_MAX ∧
      (∀ (j2 : Nat) k2, keys[j2]? = some k2 → (j2 : Int) ≠ st.currentIndex →
        onRequestedSide cur k2 dx dy → score32 cur k ≤ score32 cur k2) ∧
      (∀ (j2 : Nat) k2, j2 < j → keys[j2]? = some k2 → (j2 : Int) ≠ st.currentIndex →
        onRequestedSide cur k2 dx dy → score32 cur k < score32 cur k2)) := by
  have hnn : ¬ st.currentIndex < 0 := by
    intro hneg; simp [keyAt, hneg] at hcur
  have hget : keys[st.currentIndex.toNat]? = some cur := by
    simpa [keyAt, hnn] using hcur
  have hmf : moveFocus keys st dx dy =
      if (moveFocusLoop cur st.currentIndex dx dy keys 0 (INT_MAX, st.currentIndex)).2 ≠
          st.currentIndex then
        some (true, focusButton keys st
          (moveFocusLoop cur st.currentIndex dx dy keys 0 (INT_MAX, st.currentIndex)).2)
      else some (false, st) := by
    unfold moveFocus
    rw [if_neg hnn, hget]
  rcases loop_spec cur st.currentIndex dx dy keys 0 INT_MAX st.currentIndex with
    ⟨heq, hall⟩ | ⟨j, k, hk, heq, hne, hs, hlt, hmin, hfirst⟩
  · left
    refine ⟨?_, ?_⟩
    · rw [hmf, heq]; simp
    · intro j k hk hne hs
      exact hall j k hk (by simpa using hne) hs
  · right
    have hne2 : (j : Int) ≠ st.currentIndex := by simpa using hne
    have hjlt : j < keys.length := (List.getElem?_eq_some.mp hk).1
    refine ⟨j, k, hk, hne2, ?_, hs, hlt, ?_, ?_⟩
    · rw [hmf, heq]
      simp only [Nat.zero_add]
      rw [if_pos hne2]
      have hin : ¬ ((j : Int) < 0 ∨ (j : Int) ≥ (keys.length : Int)) := by omega
      rw [focusButton, if_neg hin]
    · intro j2 k2 h2 hn2 hs2
      exact hmin j2 k2 h2 (by simpa using hn2) hs2
    · intro j2 k2 hj2 h2 hn2 hs2
      exact hfirst j2 k2 hj2 h2 (by simpa using hn2) hs2

/-- When the squared distance is below `INT_MAX`, the 32-bit score is the squared
distance. -/
theorem score32_eq_sqDist (cur k : Key) (h : sqDist cur k < INT_MAX) :
    score32 cur k = sqDist cur k := by
  obtain ⟨⟨c1, c2⟩, ⟨r1, r2⟩, ⟨cc1, cc2⟩, ⟨rr1, rr2⟩⟩ := score_representable cur k h
  have hmin : INT_MIN ≤ -INT_MAX := by decide
  have hneg : INT_MIN ≤ 0 := by decide
  have hsum := score_eq cur k
  unfold score32
  rw [wrap32_of_range (k.col - cur.col) (le_trans hmin c1) c2,
    wrap32_of_range (k.row - cur.row) (le_trans hmin r1) r2,
    wrap32_of_range _ (le_trans hneg cc1) cc2, wrap32_of_range _ (le_trans hneg rr1) rr2,
    hsum]
  apply wrap32_of_range
  · have := add_nonneg cc1 rr1
    rw [hsum] at this
    exact le_trans hneg this
  · exact le_of_lt h

/-- The two outcomes of `moveFocus` on a valid cursor when the squared distances to the
current element are below `INT_MAX`: no element is admissible, or the first nearest
admissible element receives the focus. -/
theorem moveFocus_cases (keys : List Key) (st : UiState) (dx dy : Int) (cur : Key)
    (hcur : keyAt keys st.currentIndex = some cur)
    (hsmall : ∀ (j : Nat) k, keys[j]? = some k → sqDist cur k < INT_MAX) :
    (moveFocus keys st dx dy = some (false, st) ∧
      ∀ (j : Nat) k, keys[j]? = some k → (j : Int) ≠ st.currentIndex →
        ¬ onRequestedSide cur k dx dy) ∨
    (∃ (j : Nat) (k : Key), keys[j]? = some k ∧ (j : Int) ≠ st.currentIndex ∧
      moveFocus keys st dx dy =
        some (true, { currentIndex := (j : Int), focusRequests := st.focusRequests ++ [(j : Int)] }) ∧
      onRequestedSide cur k dx dy ∧
      (∀ (j2 : Nat) k2, keys[j2]? = some k2 → (j2 : Int) ≠ st.currentIndex →
        onRequestedSide cur k2 dx dy → sqDist cur k ≤ sqDist cur k2) ∧
      (∀ (j2 : Nat) k2, j2 < j → keys[j2]? = some k2 → (j2 : Int) ≠ st.currentIndex →
        onRequestedSide cur k2 dx dy → sqDist cur k < sqDist cur k2)) := by
  rcases moveFocus_cases32 keys st dx dy cur hcur with
    ⟨hf, hall⟩ | ⟨j, k, hk, hne, ht, hs, _, hmin, hfirst⟩
  · left
    refine ⟨hf, ?_⟩
    intro j k hk hne hs
    have h1 := hall j k hk hne hs
    have h2 := hsmall j k hk
    rw [score32_eq_sqDist cur k h2] at h1
    omega
  · right
    have hkk := score32_eq_sqDist cur k (hsmall j k hk)
    refine ⟨j, k, hk, hne, ht, hs, ?_, ?_⟩
    · intro j2 k2 h2 hn2 hs2
      have := hmin j2 k2 h2 hn2 hs2
      rw [hkk, score32_eq_sqDist cur k2 (hsmall j2 k2 h2)] at this
      exact this
    · intro j2 k2 hj2 h2 hn2 hs2
      have := hfirst j2 k2 hj2 h2 hn2 hs2
      rw [hkk, score32_eq_sqDist cur k2 (hsmall j2 k2 h2)] at this
      exact this

/-! ### Focus navigation -/

/-- C2 (amended): with squared distances to the current element below `INT_MAX`,
whenever `moveFocus(dx, dy)` moves a valid cursor, the new cursor is an element other than
the current one, strictly on the requested side, of least squared distance among the
elements passing the direction filter, and of least index among those at that distance. -/
theorem moveFocus_moves_to_first_nearest (keys : List Key) (st st2 : UiState) (dx dy : Int)
    (cur : Key) (b : Bool)
    (hcur : keyAt keys st.currentIndex = some cur)
    (hsmall : ∀ i k, keyAt keys i = some k → sqDist cur k < INT_MAX)
    (hres : moveFocus keys st dx dy = some (b, st2))
    (hmoved : st2.currentIndex ≠ st.currentIndex) :
    ∃ k, keyAt keys st2.currentIndex = some k ∧
      ((dx > 0 → k.col > cur.col) ∧ (dx < 0 → k.col < cur.col) ∧
        (dy > 0 → k.row > cur.row) ∧ (dy < 0 → k.row < cur.row)) ∧
      (∀ i k2, i ≠ st.currentIndex → keyAt keys i = some k2 → onRequestedSide cur k2 dx dy →
        sqDist cur k ≤ sqDist cur k2) ∧
      (∀ i k2, i ≠ st.currentIndex → keyAt keys i = some k2 → onRequestedSide cur k2 dx dy →
        sqDist cur k2 = sqDist cur k → st2.currentIndex ≤ i) := by
  have hsmallN : ∀ (j : Nat) k, keys[j]? = some k → sqDist cur k < INT_MAX :=
    fun j k hk => hsmall (j : Int) k (by rw [keyAt_natCast]; exact hk)
  rcases moveFocus_cases keys st dx dy cur hcur hsmallN with
    ⟨hf, _⟩ | ⟨j, k, hk, hne, ht, hs, hmin, hfirst⟩
  · rw [hf] at hres
    simp only [Option.some.injEq, Prod.mk.injEq] at hres
    exact absurd (by rw [← hres.2]) hmoved
  · rw [ht] at hres
    simp only [Option.some.injEq, Prod.mk.injEq] at hres
    obtain ⟨_, rfl⟩ := hres
    refine ⟨k, by simpa [keyAt_natCast] using hk, hs, ?_, ?_⟩
    · intro i k2 hi hk2 hs2
      obtain ⟨j2, rfl, hj2, _⟩ := keyAt_some keys i k2 hk2
      exact hmin j2 k2 hj2 hi hs2
    · intro i k2 hi hk2 hs2 heq
      obtain ⟨j2, rfl, hj2, _⟩ := keyAt_some keys i k2 hk2
      by_contra hlt
      have hlt2 : j2 < j := by
        have : ((j2 : Nat) : Int) < (j : Int) := by simpa using hlt
        omega
      have := hfirst j2 k2 hlt2 hj2 hi hs2
      omega

/-- C2 at a concrete input: of two elements at squared distance 2 to the right, the one
listed first (index 2) is chosen over the one listed later and over the farther one. -/
theorem moveFocus_moves_to_first_nearest_witness :
    ∃ k, keyAt tieKeys 2 = some k ∧
      (((1 : Int) > 0 → k.col > 0) ∧ ((1 : Int) < 0 → k.col < 0) ∧
        ((0 : Int) > 0 → k.row > 1) ∧ ((0 : Int) < 0 → k.row < 1)) ∧
      (∀ i k2, i ≠ 0 → keyAt tieKeys i = some k2 → onRequestedSide ⟨"p", 1, 0, 1⟩ k2 1 0 →
        sqDist ⟨"p", 1, 0, 1⟩ k ≤ sqDist ⟨"p", 1, 0, 1⟩ k2) ∧
      (∀ i k2, i ≠ 0 → keyAt tieKeys i = some k2 → onRequestedSide ⟨"p", 1, 0, 1⟩ k2 1 0 →
        sqDist ⟨"p", 1, 0, 1⟩ k2 = sqDist ⟨"p", 1, 0, 1⟩ k → (2 : Int) ≤ i) :=
  moveFocus_moves_to_first_nearest tieKeys ⟨0, []⟩ ⟨2, [2]⟩ 1 0 ⟨"p", 1, 0, 1⟩ true
    (by decide)
    (by
      intro i k hk
      obtain ⟨j, rfl, hj, hlt⟩ := keyAt_some tieKeys i k hk
      have hlen : j < 4 := hlt
      interval_cases j <;> simp [tieKeys] at hj <;> subst hj <;> decide)
    (by decide) (by decide)

/-- C2 as stated fails when a squared distance overflows: the element at column 46341 has
the 32-bit score -2147479015, so a request to the right from column 0 moves the cursor to
it (index 1) although the element at column 1 (index 2) passes the filter and is nearer. -/
theorem moveFocus_overflow_prefers_far :
    keyAt overflowKeys 0 = some ⟨"p", 0, 0, 1⟩ ∧
    moveFocus overflowKeys ⟨0, []⟩ 1 0 = some (true, ⟨1, [1]⟩) ∧
    keyAt overflowKeys 1 = some ⟨"far", 0, 46341, 1⟩ ∧
    keyAt overflowKeys 2 = some ⟨"near", 0, 1, 1⟩ ∧
    onRequestedSide ⟨"p", 0, 0, 1⟩ ⟨"near", 0, 1, 1⟩ 1 0 ∧
    sqDist ⟨"p", 0, 0, 1⟩ ⟨"near", 0, 1, 1⟩ < sqDist ⟨"p", 0, 0, 1⟩ ⟨"far", 0, 46341, 1⟩ := by
  decide

/-- On a full grid the cell to the right of a cell that is not in the last column holds an
element of the sequence. -/
theorem fullGrid_right_neighbour (R C : Nat) (keys : List Key) (cur : Key)
    (hgrid : isFullGrid R C keys) (hmem : cur ∈ keys) (hcol : cur.col + 1 < (C : Int)) :
    ∃ (j : Nat) (k : Key), keys[j]? = some k ∧ k.row = cur.row ∧ k.col = cur.col + 1 := by
  obtain ⟨hin, hcell⟩ := hgrid
  obtain ⟨hr0, hr1, hc0, _⟩ := hin cur hmem
  have h1 := hcell cur.row.toNat (by omega) (cur.col + 1).toNat (by omega)
  have hpos : 0 < keys.countP
      (fun k => decide (k.row = ((cur.row.toNat : Nat) : Int) ∧
        k.col = (((cur.col + 1).toNat : Nat) : Int))) := by omega
  obtain ⟨k, hk, hp⟩ := List.countP_pos_iff.mp hpos
  simp only [decide_eq_true_eq] at hp
  obtain ⟨j, hj⟩ := List.mem_iff_getElem?.mp hk
  exact ⟨j, k, hj, by omega, by omega⟩

/-- C3 (amended): on a full grid of `R` rows and `C` columns with
`(R-1)^2 + (C-1)^2 < INT_MAX`, listed in any order, with the cursor on a cell that is not
in the last column, `moveFocus(1, 0)` returns true and moves the cursor to the element of
the same row in the next column. -/
theorem moveFocus_right_on_full_grid (R C : Nat) (keys : List Key) (st : UiState) (cur : Key)
    (hgrid : isFullGrid R C keys)
    (hsize : ((R : Int) - 1) ^ 2 + ((C : Int) - 1) ^ 2 < INT_MAX)
    (hcur : keyAt keys st.currentIndex = some cur)
    (hcol : cur.col + 1 < (C : Int)) :
    ∃ st2 k, moveFocus keys st 1 0 = some (true, st2) ∧
      keyAt keys st2.currentIndex = some k ∧ k.row = cur.row ∧ k.col = cur.col + 1 ∧
      st2.focusRequests = st.focusRequests ++ [st2.currentIndex] := by
  obtain ⟨ci, hci, hget, _⟩ := keyAt_some keys st.currentIndex cur hcur
  have hmem : cur ∈ keys := List.mem_iff_getElem?.mpr ⟨ci, hget⟩
  obtain ⟨t, kt, ht, htrow, htcol⟩ := fullGrid_right_neighbour R C keys cur hgrid hmem hcol
  have htne : (t : Int) ≠ st.currentIndex := by
    intro h
    have : t = ci := by omega
    subst this
    rw [hget] at ht
    have : cur = kt := by simpa using ht
    subst this
    omega
  have htside : onRequestedSide cur kt 1 0 := by
    unfold onRequestedSide; omega
  have htdist : sqDist cur kt = 1 := by
    unfold sqDist; rw [htrow, htcol]; ring
  have hsmallN : ∀ (j : Nat) k, keys[j]? = some k → sqDist cur k < INT_MAX := by
    intro j k hk
    have hkmem : k ∈ keys := List.mem_iff_getElem?.mpr ⟨j, hk⟩
    obtain ⟨kr0, kr1, kc0, kc1⟩ := hgrid.1 k hkmem
    obtain ⟨cr0, cr1, cc0, cc1⟩ := hgrid.1 cur hmem
    have h1 : (k.col - cur.col) ^ 2 ≤ ((C : Int) - 1) ^ 2 := by
      nlinarith [mul_nonneg (by omega : (0 : Int) ≤ (C : Int) - 1 - (k.col - cur.col))
        (by omega : (0 : Int) ≤ (C : Int) - 1 + (k.col - cur.col))]
    have h2 : (k.row - cur.row) ^ 2 ≤ ((R : Int) - 1) ^ 2 := by
      nlinarith [mul_nonneg (by omega : (0 : Int) ≤ (R : Int) - 1 - (k.row - cur.row))
        (by omega : (0 : Int) ≤ (R : Int) - 1 + (k.row - cur.row))]
    unfold sqDist
    omega
  rcases moveFocus_cases keys st 1 0 cur hcur hsmallN with
    ⟨_, hall⟩ | ⟨j, k, hk, _, hres, hs, hmin, _⟩
  · exact absurd htside (hall t kt ht htne)
  · have hle := hmin t kt ht htne htside
    rw [htdist] at hle
    have hgt : k.col > cur.col := hs.1 (by decide)
    unfold sqDist at hle
    have ha : 1 ≤ k.col - cur.col := by omega
    have hsq : (k.row - cur.row) ^ 2 ≥ 0 := sq_nonneg _
    have hcol1 : k.col - cur.col = 1 := by nlinarith
    have hrow0 : k.row - cur.row = 0 := by
      have : (k.row - cur.row) ^ 2 ≤ 0 := by rw [hcol1] at hle; linarith
      have := pow_eq_zero_iff (n := 2) (by norm_num) |>.mp (le_antisymm this hsq)
      exact this
    exact ⟨_, k, hres, by simpa [keyAt_natCast] using hk, by omega, by omega, rfl⟩

/-- C3 at the 3x3 grid with the cursor on the centre cell: the focus moves to the cell
(1, 2), index 5 of the row-by-row listing. -/
theorem moveFocus_right_on_full_grid_witness :
    ∃ st2 k, moveFocus grid3x3 ⟨4, []⟩ 1 0 = some (true, st2) ∧
      keyAt grid3x3 st2.currentIndex = some k ∧ k.row = 1 ∧ k.col = 1 + 1 ∧
      st2.focusRequests = [] ++ [st2.currentIndex] :=
  moveFocus_right_on_full_grid 3 3 grid3x3 ⟨4, []⟩ ⟨"e", 1, 1, 1⟩ (by decide) (by decide)
    (by decide) (by decide)

/-- The elements of a one-row grid. -/
theorem rowGrid_getElem? (C j : Nat) (k : Key) :
    (rowGrid C)[j]? = some k ↔ j < C ∧ k = { label := "k", row := 0, col := (j : Int), width := 1 } := by
  unfold rowGrid
  rw [List.getElem?_map]
  by_cases hj : j < C
  · rw [List.getElem?_range hj]
    simp [hj, eq_comm]
  · rw [List.getElem?_eq_none (by simpa using hj)]
    simp [hj]

/-- A one-row grid is a full grid. -/
theorem rowGrid_full (C : Nat) : isFullGrid 1 C (rowGrid C) := by
  constructor
  · intro k hk
    obtain ⟨j, hj⟩ := List.mem_iff_getElem?.mp hk
    obtain ⟨hlt, rfl⟩ := (rowGrid_getElem? C j k).mp hj
    simp only
    omega
  · intro r hr c hc
    have hr0 : r = 0 := by omega
    subst hr0
    unfold rowGrid
    rw [List.countP_map]
    have hcongr : List.countP
        ((fun k : Key => decide (k.row = ((0 : Nat) : Int) ∧ k.col = (c : Int))) ∘
          fun i : Nat => ({ label := "k", row := 0, col := (i : Int), width := 1 } : Key))
        (List.range C) = List.countP (fun i => i == c) (List.range C) := by
      apply List.countP_congr
      intro i _
      simp
    rw [hcongr, ← List.count_eq_countP]
    exact List.count_eq_one_of_mem (List.nodup_range C) (List.mem_range.mpr hc)

/-- C3 as stated fails on the full grid of 1 row and 46342 columns with the cursor on the
first cell: the element at column 46341 has the 32-bit score -2147479015, the least of
all, so `moveFocus(1, 0)` moves the cursor to column 46341 and not to column 1. -/
theorem moveFocus_wide_row_overflow :
    isFullGrid 1 46342 (rowGrid 46342) ∧
    keyAt (rowGrid 46342) 0 = some { label := "k", row := 0, col := 0, width := 1 } ∧
    moveFocus (rowGrid 46342) ⟨0, []⟩ 1 0 = some (true, ⟨46341, [46341]⟩) ∧
    keyAt (rowGrid 46342) 46341 = some { label := "k", row := 0, col := 46341, width := 1 } := by
  have hk0 : (rowGrid 46342)[0]? = some { label := "k", row := 0, col := 0, width := 1 } :=
    (rowGrid_getElem? 46342 0 _).mpr ⟨by norm_num, rfl⟩
  have hkf : (rowGrid 46342)[46341]? =
      some { label := "k", row := 0, col := 46341, width := 1 } :=
    (rowGrid_getElem? 46342 46341 _).mpr ⟨by norm_num, rfl⟩
  have hk1 : (rowGrid 46342)[1]? = some { label := "k", row := 0, col := 1, width := 1 } :=
    (rowGrid_getElem? 46342 1 _).mpr ⟨by norm_num, rfl⟩
  have hcur : keyAt (rowGrid 46342) (({ currentIndex := 0, focusRequests := [] } : UiState).currentIndex) =
      some { label := "k", row := 0, col := 0, width := 1 } := by
    simpa [keyAt] using hk0
  refine ⟨rowGrid_full 46342, by simpa [keyAt] using hk0, ?_, by simpa [keyAt] using hkf⟩
  rcases moveFocus_cases32 (rowGrid 46342) ⟨0, []⟩ 1 0 _ hcur with
    ⟨_, hall⟩ | ⟨j, k, hk, hne, hres, hs, _, hmin, _⟩
  · have := hall 1 _ hk1 (by decide) (by decide)
    exact absurd this (by decide)
  · obtain ⟨hj, rfl⟩ := (rowGrid_getElem? 46342 j k).mp hk
    have hfar := hmin 46341 _ hkf (by decide) (by decide)
    have hfarval : score32 { label := "k", row := 0, col := 0, width := 1 }
        { label := "k", row := 0, col := 46341, width := 1 } = -2147479015 := by decide
    rw [hfarval] at hfar
    have hj' : j = 46341 := by
      by_contra hjne
      have hj2 : (j : Int) ≤ 46340 := by omega
      have hsq : sqDist { label := "k", row := 0, col := 0, width := 1 }
          { label := "k", row := 0, col := (j : Int), width := 1 } = (j : Int) ^ 2 := by
        unfold sqDist; simp
      have hbound : (j : Int) ^ 2 ≤ 46340 ^ 2 := by
        have : (0 : Int) ≤ j := by omega
        nlinarith
      have hlt : sqDist { label := "k", row := 0, col := 0, width := 1 }
          { label := "k", row := 0, col := (j : Int), width := 1 } < INT_MAX := by
        rw [hsq]; unfold INT_MAX; omega
      rw [score32_eq_sqDist _ _ hlt, hsq] at hfar
      have : (0 : Int) ≤ (j : Int) ^ 2 := sq_nonneg _
      omega
    subst hj'
    exact hres

/-- C4: on a valid cursor, with squared distances below `INT_MAX`, `moveFocus(dx, dy)`
returns false exactly when no element other than the current one passes the direction
filter; then the cursor is unchanged and no focus request is issued; otherwise it
returns true, the cursor changes and one focus request for the new cursor is issued. -/
theorem moveFocus_false_iff_no_candidate (keys : List Key) (st : UiState) (dx dy : Int)
    (cur : Key)
    (hcur : keyAt keys st.currentIndex = some cur)
    (hsmall : ∀ i k, keyAt keys i = some k → sqDist cur k < INT_MAX) :
    ∃ b st2, moveFocus keys st dx dy = some (b, st2) ∧
      (b = false ↔ ¬ ∃ i, isCandidate keys st.currentIndex cur dx dy i) ∧
      (b = false → st2 = st) ∧
      (b = true → st2.currentIndex ≠ st.currentIndex ∧
        st2.focusRequests = st.focusRequests ++ [st2.currentIndex]) := by
  have hsmallN : ∀ (j : Nat) k, keys[j]? = some k → sqDist cur k < INT_MAX :=
    fun j k hk => hsmall (j : Int) k (by rw [keyAt_natCast]; exact hk)
  rcases moveFocus_cases keys st dx dy cur hcur hsmallN with
    ⟨hf, hall⟩ | ⟨j, k, hk, hne, ht, hs, _, _⟩
  · refine ⟨false, st, hf, ?_, fun _ => rfl, fun h => by simp at h⟩
    refine ⟨fun _ => ?_, fun _ => rfl⟩
    rintro ⟨i, hi, k, hk, hs⟩
    obtain ⟨j, rfl, hj, _⟩ := keyAt_some keys i k hk
    exact hall j k hj hi hs
  · refine ⟨true, _, ht, ?_, fun h => by simp at h, fun _ => ⟨hne, rfl⟩⟩
    refine ⟨fun h => by simp at h, fun h => ?_⟩
    exact absurd ⟨(j : Int), hne, k, by simpa [keyAt_natCast] using hk, hs⟩ h

/-- C4 at a concrete input: from the rightmost cell of the middle row of the 3x3 grid a
request to the right finds no candidate. -/
theorem moveFocus_false_iff_no_candidate_witness :
    ∃ b st2, moveFocus grid3x3 ⟨5, []⟩ 1 0 = some (b, st2) ∧
      (b = false ↔ ¬ ∃ i, isCandidate grid3x3 5 ⟨"f", 1, 2, 1⟩ 1 0 i) ∧
      (b = false → st2 = ⟨5, []⟩) ∧
      (b = true → st2.currentIndex ≠ 5 ∧ st2.focusRequests = [] ++ [st2.currentIndex]) :=
  moveFocus_false_iff_no_candidate grid3x3 ⟨5, []⟩ 1 0 ⟨"f", 1, 2, 1⟩ (by decide)
    (by
      intro i k hk
      obtain ⟨j, rfl, hj, hlt⟩ := keyAt_some grid3x3 i k hk
      have hlen : j < 9 := hlt
      interval_cases j <;> simp [grid3x3] at hj <;> subst hj <;> decide)

/-- C9: `moveFocus` does not check the cursor before `keys[currentIndex]`.  On the empty
sequence with cursor 0, and on a one-key sequence with cursor 1 or -1, the access is out
of range, while `focusButton` and `click_button_idle` reject the same indices. -/
theorem moveFocus_unchecked_cursor :
    moveFocus [] ⟨0, []⟩ 1 0 = none ∧
    moveFocus oneKey ⟨1, []⟩ 1 0 = none ∧
    moveFocus oneKey ⟨-1, []⟩ 1 0 = none ∧
    focusButton [] ⟨0, []⟩ 0 = ⟨0, []⟩ ∧
    focusButton oneKey ⟨0, []⟩ 1 = ⟨0, []⟩ ∧
    click_button_idle [] 0 = none ∧
    click_button_idle oneKey 1 = none := by
  decide

/-! ### Signal conditioner -/

/-- C1 (amended): for every `int` value `v` other than `INT_MIN` and every `int` deadzone
`d`, `apply_deadzone v d` is 0 when `|v| < d` and is `v` when `|v| >= d`; at the
threshold, `apply_deadzone d d = d`. -/
theorem apply_deadzone_spec (v d : Int) (hv : INT_MIN < v ∧ v ≤ INT_MAX)
    (hd : INT_MIN ≤ d ∧ d ≤ INT_MAX) :
    (|v| < d → apply_deadzone v d = 0) ∧ (d ≤ |v| → apply_deadzone v d = v) ∧
      apply_deadzone d d = d := by
  have habs := wrap32_abs v hv.1 hv.2
  refine ⟨fun h => ?_, fun h => ?_, ?_⟩
  · unfold apply_deadzone
    rw [habs, if_pos h]
  · unfold apply_deadzone
    rw [habs, if_neg (not_lt.mpr h)]
  · unfold apply_deadzone
    by_cases hmin : d = INT_MIN
    · subst hmin
      have : ¬ wrap32 |INT_MIN| < INT_MIN := by decide
      rw [if_neg this]
    · have hlt : INT_MIN < d := lt_of_le_of_ne hd.1 (Ne.symm hmin)
      rw [wrap32_abs d hlt hd.2, if_neg (not_lt.mpr (le_abs_self d))]

/-- C1 at concrete inputs: inside the deadzone, outside it, and at the threshold. -/
theorem apply_deadzone_spec_witness :
    apply_deadzone 399 400 = 0 ∧ apply_deadzone (-600) 400 = -600 ∧
      apply_deadzone 400 400 = 400 :=
  ⟨(apply_deadzone_spec 399 400 (by decide) (by decide)).1 (by decide),
    (apply_deadzone_spec (-600) 400 (by decide) (by decide)).2.1 (by decide),
    (apply_deadzone_spec 400 400 (by decide) (by decide)).2.2⟩

/-- C1 as stated fails at `INT_MIN`: its 32-bit absolute value is `INT_MIN` itself, which
is below the deadzone 400, so the result is 0 although `|v| >= d`. -/
theorem apply_deadzone_int_min :
    (400 : Int) ≤ |(-2147483648)| ∧ apply_deadzone (-2147483648) 400 = 0 ∧
      apply_deadzone (-2147483648) 400 ≠ -2147483648 := by
  decide

/-- The output of `analog_to_key_speed` outside the deadzone. -/
theorem analog_to_key_speed_outside (v d : Int) (s : ℚ) (hr : INT_MIN < v ∧ v ≤ INT_MAX)
    (hv : d ≤ |v|) :
    analog_to_key_speed v d s = (v : ℚ) / 1800 * s := by
  have hdz : apply_deadzone v d = v := by
    unfold apply_deadzone
    rw [wrap32_abs v hr.1 hr.2, if_neg (not_lt.mpr hv)]
  unfold analog_to_key_speed
  simp only [hdz]
  by_cases h0 : v = 0
  · simp [h0]
  · simp [h0]

/-- C10 (amended): for a sensitivity that is not negative and raw values other than
`INT_MIN`, `analog_to_key_speed` is monotonic in the raw value outside the deadzone. -/
theorem analog_to_key_speed_mono (d : Int) (s : ℚ) (v w : Int)
    (hs : 0 ≤ s) (hrv : INT_MIN < v ∧ v ≤ INT_MAX) (hrw : INT_MIN < w ∧ w ≤ INT_MAX)
    (hvw : v ≤ w) (hv : d ≤ |v|) (hw : d ≤ |w|) :
    analog_to_key_speed v d s ≤ analog_to_key_speed w d s := by
  rw [analog_to_key_speed_outside v d s hrv hv, analog_to_key_speed_outside w d s hrw hw]
  have hq : (v : ℚ) ≤ (w : ℚ) := by exact_mod_cast hvw
  have : (v : ℚ) / 1800 ≤ (w : ℚ) / 1800 := by
    apply div_le_div_of_nonneg_right hq; norm_num
  exact mul_le_mul_of_nonneg_right this hs

/-- C10 at concrete inputs: deadzone 400, sensitivity 1, raw values -600 and 500. -/
theorem analog_to_key_speed_mono_witness :
    analog_to_key_speed (-600) 400 1 ≤ analog_to_key_speed 500 400 1 :=
  analog_to_key_speed_mono 400 1 (-600) 500 (by norm_num) (by decide) (by decide)
    (by norm_num) (by decide) (by decide)

/-- C10 as stated fails in two ways.  For a negative sensitivity: with deadzone 400 and
sensitivity -1 the raw values 500 and 600 are outside the deadzone and in order, and the
outputs are in the opposite order.  At `INT_MIN`: with deadzone 400 and sensitivity 1 the
raw values `INT_MIN` and `INT_MIN + 1` are outside the deadzone and in order, the first
output is 0 and the second is negative. -/
theorem analog_to_key_speed_not_monotonic :
    ((500 : Int) ≤ 600 ∧ (400 : Int) ≤ |500| ∧ (400 : Int) ≤ |600| ∧
      ¬ (analog_to_key_speed 500 400 (-1) ≤ analog_to_key_speed 600 400 (-1))) ∧
    ((-2147483648 : Int) ≤ -2147483647 ∧ (400 : Int) ≤ |(-2147483648)| ∧
      (400 : Int) ≤ |(-2147483647)| ∧
      ¬ (analog_to_key_speed (-2147483648) 400 1 ≤ analog_to_key_speed (-2147483647) 400 1)) := by
  refine ⟨⟨by decide, by decide, by decide, ?_⟩, ⟨by decide, by decide, by decide, ?_⟩⟩
  · rw [analog_to_key_speed_outside 500 400 (-1) (by decide) (by decide),
      analog_to_key_speed_outside 600 400 (-1) (by decide) (by decide)]
    norm_num
  · have h0 : analog_to_key_speed (-2147483648) 400 1 = 0 := by
      have hdz : apply_deadzone (-2147483648) 400 = 0 := by decide
      unfold analog_to_key_speed
      simp only [hdz]
      simp
    rw [h0, analog_to_key_speed_outside (-2147483647) 400 1 (by decide) (by decide)]
    norm_num

/-! ### Virtual input device -/

/-- C7 (amended): for all `int` values `dx` and `dy` other than `INT_MIN`,
`send_mouse_rel(fd, dx, dy)` writes nothing when both arguments are zero; otherwise it
writes `REL_X` with value `-dy` exactly when `dy` is not zero, then `REL_Y` with value
`-dx` exactly when `dx` is not zero, then one `SYN_REPORT`. -/
theorem send_mouse_rel_spec (fd dx dy : Int) (hdx : INT_MIN < dx ∧ dx ≤ INT_MAX)
    (hdy : INT_MIN < dy ∧ dy ≤ INT_MAX) :
    (dx = 0 ∧ dy = 0 → send_mouse_rel fd dx dy = []) ∧
    (dx = 0 ∧ dy ≠ 0 → send_mouse_rel fd dx dy =
      [{ time := 0, type := EV_REL, code := REL_X, value := -dy }, synEvent]) ∧
    (dx ≠ 0 ∧ dy = 0 → send_mouse_rel fd dx dy =
      [{ time := 0, type := EV_REL, code := REL_Y, value := -dx }, synEvent]) ∧
    (dx ≠ 0 ∧ dy ≠ 0 → send_mouse_rel fd dx dy =
      [{ time := 0, type := EV_REL, code := REL_X, value := -dy },
       { time := 0, type := EV_REL, code := REL_Y, value := -dx }, synEvent]) := by
  have hx := wrap32_neg dx hdx.1 hdx.2
  have hy := wrap32_neg dy hdy.1 hdy.2
  refine ⟨?_, ?_, ?_, ?_⟩ <;> rintro ⟨h1, h2⟩ <;>
    simp [send_mouse_rel, h1, h2, synEvent, hx, hy]

/-- C7 at concrete inputs, one for each of the four cases. -/
theorem send_mouse_rel_spec_witness :
    send_mouse_rel 3 0 0 = [] ∧
    send_mouse_rel 3 0 5 = [{ time := 0, type := EV_REL, code := REL_X, value := -5 }, synEvent] ∧
    send_mouse_rel 3 (-2) 0 =
      [{ time := 0, type := EV_REL, code := REL_Y, value := 2 }, synEvent] ∧
    send_mouse_rel 3 3 (-4) =
      [{ time := 0, type := EV_REL, code := REL_X, value := 4 },
       { time := 0, type := EV_REL, code := REL_Y, value := -3 }, synEvent] :=
  ⟨(send_mouse_rel_spec 3 0 0 (by decide) (by decide)).1 (by decide),
    (send_mouse_rel_spec 3 0 5 (by decide) (by decide)).2.1 (by decide),
    (send_mouse_rel_spec 3 (-2) 0 (by decide) (by decide)).2.2.1 (by decide),
    (send_mouse_rel_spec 3 3 (-4) (by decide) (by decide)).2.2.2 (by decide)⟩

/-- C7 as stated fails at `INT_MIN`: the 32-bit negation of `INT_MIN` is `INT_MIN`, so
for `dy = INT_MIN` the `REL_X` event carries -2147483648, which is `dy` and not `-dy`. -/
theorem send_mouse_rel_int_min :
    send_mouse_rel 3 0 (-2147483648) =
      [{ time := 0, type := EV_REL, code := REL_X, value := -2147483648 }, synEvent] ∧
    (-2147483648 : Int) ≠ -(-2147483648) := by
  decide

/-- A batch of data events closed by the synchronization event is consumed whole. -/
theorem framedFrom_block (data rest : List input_event) (hd : ∀ e ∈ data, ¬ isSyn e)
    (hne : data ≠ []) (pending : Bool) :
    framedFrom pending (data ++ synEvent :: rest) = framedFrom false rest := by
  induction data generalizing pending with
  | nil => exact absurd rfl hne
  | cons e es ih =>
    have he : ¬ isSyn e := hd e (by simp)
    cases es with
    | nil =>
      have hs : isSyn synEvent := by decide
      simp [framedFrom, he, hs]
    | cons e2 es2 =>
      have := ih (fun x hx => hd x (by simp at hx ⊢; exact Or.inr hx)) (by simp) true
      simp only [List.cons_append, framedFrom, if_neg he] at this ⊢
      exact this

/-- The output of one emitter call: nothing, or data events and then the synchronization
event. -/
theorem events_shape (c : EmitCall) :
    c.events = [] ∨
      ∃ data, data ≠ [] ∧ (∀ e ∈ data, ¬ isSyn e) ∧ c.events = data ++ [synEvent] := by
  cases c with
  | key fd k v =>
    right
    refine ⟨[{ time := 0, type := EV_KEY, code := k % 65536, value := v }], by simp, ?_, rfl⟩
    intro e he
    simp at he; subst he
    simp [isSyn, EV_KEY, EV_SYN]
  | wheel fd v =>
    right
    refine ⟨[{ time := 0, type := EV_REL, code := REL_WHEEL, value := v }], by simp, ?_, rfl⟩
    intro e he
    simp at he; subst he
    simp [isSyn, EV_REL, EV_SYN]
  | rel fd dx dy =>
    by_cases hx : dx = 0 <;> by_cases hy : dy = 0
    · left; simp [EmitCall.events, send_mouse_rel, hx, hy]
    · right
      refine ⟨[{ time := 0, type := EV_REL, code := REL_X, value := wrap32 (-dy) }],
        by simp, ?_, ?_⟩
      · intro e he
        simp at he; subst he
        simp [isSyn, EV_REL, EV_SYN]
      · simp [EmitCall.events, send_mouse_rel, hx, hy, synEvent]
    · right
      refine ⟨[{ time := 0, type := EV_REL, code := REL_Y, value := wrap32 (-dx) }],
        by simp, ?_, ?_⟩
      · intro e he
        simp at he; subst he
        simp [isSyn, EV_REL, EV_SYN]
      · simp [EmitCall.events, send_mouse_rel, hx, hy, synEvent]
    · right
      refine ⟨[{ time := 0, type := EV_REL, code := REL_X, value := wrap32 (-dy) },
        { time := 0, type := EV_REL, code := REL_Y, value := wrap32 (-dx) }], by simp, ?_, ?_⟩
      · intro e he
        simp at he
        rcases he with he | he <;> subst he <;> simp [isSyn, EV_REL, EV_SYN]
      · simp [EmitCall.events, send_mouse_rel, hx, hy, synEvent]

/-- The stream of any sequence of emitter calls is framed. -/
theorem emitAll_framed (calls : List EmitCall) : framedFrom false (emitAll calls) = true := by
  induction calls with
  | nil => rfl
  | cons c cs ih =>
    have hcons : emitAll (c :: cs) = c.events ++ emitAll cs := by
      simp [emitAll]
    rw [hcons]
    rcases events_shape c with h | ⟨data, hne, hd, h⟩
    · rw [h]; simpa using ih
    · rw [h, List.append_assoc]
      simp only [List.singleton_append]
      rw [framedFrom_block data (emitAll cs) hd hne false]
      exact ih

/-- C8: for every sequence of calls of `send_key`, `send_mouse_wheel` and `send_mouse_rel`,
each call writes nothing or writes its data events followed by exactly one
`EV_SYN`/`SYN_REPORT` event, and the concatenated stream consists of batches of data events
each closed by exactly one synchronization event; no synchronization event comes without a
data event before it. -/
theorem emit_stream_framed (calls : List EmitCall) :
    framedFrom false (emitAll calls) = true ∧
    ∀ c ∈ calls, c.events = [] ∨
      ∃ data, data ≠ [] ∧ (∀ e ∈ data, ¬ isSyn e) ∧ c.events = data ++ [synEvent] :=
  ⟨emitAll_framed calls, fun c _ => events_shape c⟩

/-! ### Event reader loop -/

/-- In navigation mode with the Y axis at rest, an `ABS_X` event stores the sample and the
discretised direction, and calls `moveFocus` when that direction is not zero and differs
from the last one fired. -/
theorem handleEvent_absX (cfg : Config) (s : ReaderState) (e : input_event)
    (hmode : s.mode = 0) (hy : -400 ≤ s.abs_y ∧ s.abs_y ≤ 400) (hly : s.last_move_y = 0)
    (he : isAbsX e) :
    handleEvent cfg s e =
      ({ s with
          abs_x := e.value
          last_move_x := if e.value > 400 then -1 else if e.value < -400 then 1 else 0 },
        if e.value < -400 ∧ s.last_move_x ≠ 1 then [Effect.moveFocus 1 0]
        else if e.value > 400 ∧ s.last_move_x ≠ -1 then [Effect.moveFocus (-1) 0]
        else []) := by
  obtain ⟨ht, hc⟩ := he
  obtain ⟨hy1, hy2⟩ := hy
  have hy3 : ¬ s.abs_y > 400 := by omega
  have hy4 : ¬ s.abs_y < -400 := by omega
  cases s with
  | mk mode abs_x abs_y abs_rx abs_ry last_move_x last_move_y right_x right_y =>
    simp only at hmode hly hy3 hy4
    subst hmode hly
    by_cases h1 : e.value > 400
    · have h2 : ¬ e.value < -400 := by omega
      by_cases h3 : last_move_x = -1
      · simp [handleEvent, ht, hc, EV_ABS, ABS_X, ABS_RX, ABS_RY, DEADZONE, h1, h2, h3, hy3, hy4]
      · simp [handleEvent, ht, hc, EV_ABS, ABS_X, ABS_RX, ABS_RY, DEADZONE, h1, h2, h3, hy3, hy4]
        omega
    · by_cases h2 : e.value < -400
      · by_cases h3 : last_move_x = 1
        · simp [handleEvent, ht, hc, EV_ABS, ABS_X, ABS_RX, ABS_RY, DEADZONE, h1, h2, h3, hy3, hy4]
        · simp [handleEvent, ht, hc, EV_ABS, ABS_X, ABS_RX, ABS_RY, DEADZONE, h1, h2, h3, hy3, hy4]
          omega
      · by_cases h3 : last_move_x = 0
        · simp [handleEvent, ht, hc, EV_ABS, ABS_X, ABS_RX, ABS_RY, DEADZONE, h1, h2, h3, hy3, hy4]
        · simp [handleEvent, ht, hc, EV_ABS, ABS_X, ABS_RX, ABS_RY, DEADZONE, h1, h2, h3, hy3, hy4]
          omega

/-- The part of the reader state the `ABS_X` handling relies on: navigation mode, Y axis
within the deadzone, no Y direction fired. -/
theorem handleEvent_absX_state (cfg : Config) (s : ReaderState) (e : input_event)
    (hmode : s.mode = 0) (hy : -400 ≤ s.abs_y ∧ s.abs_y ≤ 400) (hly : s.last_move_y = 0)
    (he : isAbsX e) :
    (handleEvent cfg s e).1.mode = 0 ∧
      (-400 ≤ (handleEvent cfg s e).1.abs_y ∧ (handleEvent cfg s e).1.abs_y ≤ 400) ∧
      (handleEvent cfg s e).1.last_move_y = 0 ∧
      (handleEvent cfg s e).1.last_move_x =
        (if e.value > 400 then -1 else if e.value < -400 then 1 else 0) := by
  rw [handleEvent_absX cfg s e hmode hy hly he]
  exact ⟨hmode, hy, hly, rfl⟩

/-- The state after a run of `ABS_X` events keeps navigation mode and the Y axis at rest. -/
theorem runEvents_absX_state (cfg : Config) (es : List input_event) :
    ∀ (s : ReaderState), s.mode = 0 → (-400 ≤ s.abs_y ∧ s.abs_y ≤ 400) → s.last_move_y = 0 →
      (∀ x ∈ es, isAbsX x) →
      (runEvents cfg s es).1.mode = 0 ∧
        (-400 ≤ (runEvents cfg s es).1.abs_y ∧ (runEvents cfg s es).1.abs_y ≤ 400) ∧
        (runEvents cfg s es).1.last_move_y = 0 := by
  induction es with
  | nil => intro s hmode hy hly _; exact ⟨hmode, hy, hly⟩
  | cons e rest ih =>
    intro s hmode hy hly hall
    obtain ⟨h1, h2, h3, _⟩ :=
      handleEvent_absX_state cfg s e hmode hy hly (hall e (by simp))
    exact ih _ h1 h2 h3 (fun x hx => hall x (by simp [hx]))

/-- The state after a run that ends with the event `e` is the state the handler leaves
for `e`. -/
theorem runEvents_snoc_state (cfg : Config) (es : List input_event) (e : input_event) :
    ∀ (s : ReaderState),
      (runEvents cfg s (es ++ [e])).1 = (handleEvent cfg (runEvents cfg s es).1 e).1 := by
  induction es with
  | nil => intro s; rfl
  | cons x rest ih => intro s; exact ih _

/-- While the stick stays deflected below the deadzone after direction +1 was fired, no
call is made. -/
theorem runEvents_held (cfg : Config) (es : List input_event) :
    ∀ (s : ReaderState), s.mode = 0 → (-400 ≤ s.abs_y ∧ s.abs_y ≤ 400) → s.last_move_y = 0 →
      s.last_move_x = 1 → (∀ x ∈ es, isAbsX x ∧ x.value < -400) →
      (runEvents cfg s es).2 = [] := by
  induction es with
  | nil => intro s _ _ _ _ _; rfl
  | cons e rest ih =>
    intro s hmode hy hly hlx hall
    obtain ⟨he, hv⟩ := hall e (by simp)
    obtain ⟨h1, h2, h3, h4⟩ := handleEvent_absX_state cfg s e hmode hy hly he
    have hnot : ¬ e.value > 400 := by omega
    rw [if_neg hnot, if_pos hv] at h4
    have hrest := ih _ h1 h2 h3 h4 (fun x hx => hall x (by simp [hx]))
    have hhead : (handleEvent cfg s e).2 = [] := by
      rw [handleEvent_absX cfg s e hmode hy hly he]
      simp [hlx, hnot]
    show (handleEvent cfg s e).2 ++ (runEvents cfg (handleEvent cfg s e).1 rest).2 = []
    rw [hhead, hrest]; rfl

/-- C5 (amended): in navigation mode with the Y axis at rest and last fired direction
(0, 0), an `ABS_X` event below -400 calls `moveFocus(1, 0)` once and the directly
following `ABS_X` events below -400 call nothing; later on, an `ABS_X` event calls
`moveFocus` exactly when it is beyond the deadzone and the `ABS_X` event before it was not
deflected to the same side, be it within the deadzone or on the opposite side. -/
theorem nav_repeat_suppression (cfg : Config) (s : ReaderState)
    (hmode : s.mode = 0) (hy : -400 ≤ s.abs_y ∧ s.abs_y ≤ 400)
    (hlast : s.last_move_x = 0 ∧ s.last_move_y = 0) :
    (∀ (e : input_event) (es : List input_event), isAbsX e → e.value < -400 →
      (∀ x ∈ es, isAbsX x ∧ x.value < -400) →
      (runEvents cfg s (e :: es)).2 = [Effect.moveFocus 1 0]) ∧
    (∀ (pre : List input_event) (e1 e2 : input_event), (∀ x ∈ pre, isAbsX x) → isAbsX e1 →
      isAbsX e2 →
      (handleEvent cfg (runEvents cfg s (pre ++ [e1])).1 e2).2 =
        if e2.value < -400 ∧ ¬ e1.value < -400 then [Effect.moveFocus 1 0]
        else if e2.value > 400 ∧ ¬ e1.value > 400 then [Effect.moveFocus (-1) 0]
        else []) := by
  obtain ⟨hlx, hly⟩ := hlast
  constructor
  · intro e es he hv hall
    obtain ⟨h1, h2, h3, h4⟩ := handleEvent_absX_state cfg s e hmode hy hly he
    have hnot : ¬ e.value > 400 := by omega
    rw [if_neg hnot, if_pos hv] at h4
    have hrest := runEvents_held cfg es _ h1 h2 h3 h4 hall
    have hhead : (handleEvent cfg s e).2 = [Effect.moveFocus 1 0] := by
      rw [handleEvent_absX cfg s e hmode hy hly he]
      simp [hlx, hv]
    show (handleEvent cfg s e).2 ++ (runEvents cfg (handleEvent cfg s e).1 es).2 = _
    rw [hhead, hrest]; rfl
  · intro pre e1 e2 hpre he1 he2
    obtain ⟨p1, p2, p3⟩ := runEvents_absX_state cfg pre s hmode hy hly hpre
    rw [runEvents_snoc_state]
    obtain ⟨h1, h2, h3, h4⟩ :=
      handleEvent_absX_state cfg (runEvents cfg s pre).1 e1 p1 p2 p3 he1
    rw [handleEvent_absX cfg _ e2 h1 h2 h3 he2]
    simp only [h4]
    have ha : (if e1.value > 400 then (-1 : Int) else if e1.value < -400 then 1 else 0) ≠ 1 ↔
        ¬ e1.value < -400 := by
      split_ifs <;> omega
    have hb : (if e1.value > 400 then (-1 : Int) else if e1.value < -400 then 1 else 0) ≠ -1 ↔
        ¬ e1.value > 400 := by
      split_ifs <;> omega
    simp only [ha, hb]

/-- C5 at concrete inputs, from the initial reader state: a deflection to -600 followed by
two more samples below -400; a deflection after a sample within the deadzone; a deflection
to the opposite side directly after a deflection. -/
theorem nav_repeat_suppression_witness :
    (runEvents config readerInit [absXEvent 0 (-600), absXEvent 5000 (-700),
      absXEvent 10000 (-401)]).2 = [Effect.moveFocus 1 0] ∧
    (handleEvent config
        (runEvents config readerInit ([absXEvent 0 (-600)] ++ [absXEvent 5000 100])).1
        (absXEvent 10000 (-600))).2 = [Effect.moveFocus 1 0] ∧
    (handleEvent config
        (runEvents config readerInit ([absXEvent 0 (-600)] ++ [absXEvent 5000 (-500)])).1
        (absXEvent 10000 600)).2 = [Effect.moveFocus (-1) 0] :=
  ⟨(nav_repeat_suppression config readerInit (by decide) (by decide) (by decide)).1
      (absXEvent 0 (-600)) [absXEvent 5000 (-700), absXEvent 10000 (-401)]
      (by decide) (by decide) (by decide),
    (nav_repeat_suppression config readerInit (by decide) (by decide) (by decide)).2
      [absXEvent 0 (-600)] (absXEvent 5000 100) (absXEvent 10000 (-600))
      (by decide) (by decide) (by decide),
    (nav_repeat_suppression config readerInit (by decide) (by decide) (by decide)).2
      [absXEvent 0 (-600)] (absXEvent 5000 (-500)) (absXEvent 10000 600)
      (by decide) (by decide) (by decide)⟩

/-- C5 as stated fails: no event of this run is within the deadzone, yet the second and
the third event each call `moveFocus` again. -/
theorem nav_flip_fires_without_rest :
    (runEvents config readerInit
        [absXEvent 0 (-600), absXEvent 5000 600, absXEvent 10000 (-600)]).2 =
      [Effect.moveFocus 1 0, Effect.moveFocus (-1) 0, Effect.moveFocus 1 0] ∧
    (∀ e ∈ [absXEvent 0 (-600), absXEvent 5000 600, absXEvent 10000 (-600)],
      ¬ (-400 ≤ e.value ∧ e.value ≤ 400)) := by
  decide

/-- A press of the mode button flips the mode and makes the two calls of the transition. -/
theorem handleEvent_modePress (cfg : Config) (s : ReaderState) (e : input_event)
    (hm : s.mode = 0 ∨ s.mode = 1) (he : isModePress e) :
    handleEvent cfg s e =
      ({ s with mode := 1 - s.mode },
        [Effect.toggleKeyboardVisibility, Effect.usleep 200000]) := by
  obtain ⟨ht, hc, hv⟩ := he
  cases s with
  | mk mode abs_x abs_y abs_rx abs_ry last_move_x last_move_y right_x right_y =>
    simp only at hm
    rcases hm with hm | hm <;> subst hm <;>
      simp [handleEvent, ht, hc, hv, EV_ABS, EV_KEY, BTN_MODE, BTN_THUMBR]

/-- Every press of the mode button that the loop handles flips the mode, Navigation to
Injection or Injection to Navigation; the loop does not read the time stamp of the event.
Two presses handled one after the other give two mode changes and leave the mode where it
started. -/
theorem mode_press_always_toggles (cfg : Config) (s : ReaderState) (e1 e2 : input_event)
    (hm : s.mode = 0 ∨ s.mode = 1) (h1 : isModePress e1) (h2 : isModePress e2) :
    (handleEvent cfg s e1).1.mode = 1 - s.mode ∧
      (handleEvent cfg s e1).1.mode ≠ s.mode ∧
      (handleEvent cfg s e1).2 = [Effect.toggleKeyboardVisibility, Effect.usleep 200000] ∧
      modeTrace cfg s [e1, e2] = [s.mode, 1 - s.mode, s.mode] ∧
      countChanges (modeTrace cfg s [e1, e2]) = 2 := by
  have hs1 := handleEvent_modePress cfg s e1 hm h1
  have hm1 : (handleEvent cfg s e1).1.mode = 1 - s.mode := by rw [hs1]
  have hm1b : (handleEvent cfg s e1).1.mode = 0 ∨ (handleEvent cfg s e1).1.mode = 1 := by
    rw [hm1]; omega
  have hs2 := handleEvent_modePress cfg _ e2 hm1b h2
  have hm2 : (handleEvent cfg (handleEvent cfg s e1).1 e2).1.mode = s.mode := by
    rw [hs2]; simp only; rw [hm1]; omega
  have htrace : modeTrace cfg s [e1, e2] = [s.mode, 1 - s.mode, s.mode] := by
    simp only [modeTrace, hm1, hm2]
  refine ⟨hm1, by rw [hm1]; omega, by rw [hs1], htrace, ?_⟩
  rw [htrace]
  have ha : s.mode ≠ 1 - s.mode := by omega
  have hb : 1 - s.mode ≠ s.mode := by omega
  simp [countChanges, ha, hb]

/-- Two presses with stamps 100 ms apart, handled from the initial state. -/
theorem mode_press_always_toggles_witness :
    (handleEvent config readerInit (modePress 0)).1.mode = 1 - 0 ∧
      (handleEvent config readerInit (modePress 0)).1.mode ≠ 0 ∧
      (handleEvent config readerInit (modePress 0)).2 =
        [Effect.toggleKeyboardVisibility, Effect.usleep 200000] ∧
      modeTrace config readerInit [modePress 0, modePress 100000] = [0, 1 - 0, 0] ∧
      countChanges (modeTrace config readerInit [modePress 0, modePress 100000]) = 2 :=
  mode_press_always_toggles config readerInit (modePress 0) (modePress 100000)
    (by decide) (by decide) (by decide)

/-- C6: two presses of the mode button inside one 200 ms window.  A press, its release
and a second press, with stamps 0, 50 ms and 100 ms, are handled one after the other by
the loop: the mode changes twice and ends in Navigation, where the claim allows exactly
one change. -/
theorem two_presses_within_window_toggle_twice :
    modeTrace config readerInit [modePress 0, modeRelease 50000, modePress 100000] =
      [0, 1, 1, 0] ∧
    countChanges
      (modeTrace config readerInit [modePress 0, modeRelease 50000, modePress 100000]) = 2 ∧
    (modePress 100000).time - (modePress 0).time < 200000 := by
  decide

/-! ### Built-in keyboard -/

/-- The built-in keyboard has 74 keys. -/
theorem setupKeyboard_length : (setupKeyboard []).length = 74 := by
  decide!

/-- Every list of the path table holds unit direction requests only and leads from the
state that `activate` leaves to the key of its index. -/
theorem focusPaths_check :
    ∀ i < 74, (∀ d ∈ focusPaths.getD i [], d ∈ unitDirections) ∧
      (moveFocusAll activate.1 activate.2 (focusPaths.getD i [])).map UiState.currentIndex =
        some (i : Int) := by
  decide!

/-- C11: on the keyboard built by `setupKeyboard` (74 keys), with the cursor that
`activate` sets (index 0, the key `ESC`), every key index is reached by a finite sequence of unit
direction requests (1,0), (-1,0), (0,1), (0,-1) handed to successive `moveFocus` calls. -/
theorem builtin_keys_reachable (i : Nat) (hi : i < (setupKeyboard []).length) :
    (setupKeyboard []).length = 74 ∧ activate.1 = setupKeyboard [] ∧
      activate.2.currentIndex = 0 ∧
      keyAt activate.1 0 = some { label := "ESC", row := 0, col := 0, width := 1 } ∧
      ∃ path : List (Int × Int),
        (∀ d ∈ path, d = (1, 0) ∨ d = (-1, 0) ∨ d = (0, 1) ∨ d = (0, -1)) ∧
        ∃ st, moveFocusAll activate.1 activate.2 path = some st ∧ st.currentIndex = (i : Int) := by
  rw [setupKeyboard_length] at hi
  obtain ⟨hdirs, hrun⟩ := focusPaths_check i hi
  refine ⟨setupKeyboard_length, rfl, by decide!, by decide!, focusPaths.getD i [], ?_, ?_⟩
  · intro d hd
    have := hdirs d hd
    simpa [unitDirections] using this
  · obtain ⟨st, hst, hcur⟩ := Option.map_eq_some'.mp hrun
    exact ⟨st, hst, hcur⟩

/-- C11 at the last key of the keyboard, the right `CTRL` (index 73). -/
theorem builtin_keys_reachable_witness :
    73 < (setupKeyboard []).length ∧
      ∃ path : List (Int × Int),
        (∀ d ∈ path, d = (1, 0) ∨ d = (-1, 0) ∨ d = (0, 1) ∨ d = (0, -1)) ∧
        ∃ st, moveFocusAll activate.1 activate.2 path = some st ∧
          st.currentIndex = ((73 : Nat) : Int) :=
  ⟨by rw [setupKeyboard_length]; decide,
    (builtin_keys_reachable 73 (by rw [setupKeyboard_length]; decide)).2.2.2.2⟩

end R36S
